import Mathlib

/-!
# NUMA node enumerator of irqbalance (`numa.c`)

A shallow embedding of `src/numa.c` and the properties of its node list,
lookup and package attachment.

The C program works on a pointer graph.  The embedding keeps that graph
explicit: objects live in a memory indexed by addresses, the module-level
variables `numa_nodes`, `numa_avail` and `unspecified_node` are fields or
cells of the program state, and every C function is a function from states
to states (or to a result).  What the host answers during a scan (memory
allocation, `fopen`, `getline`, the directory listing) is passed in
explicitly.
-/

namespace Numa

/-! ## Data model -/

/-- Address of a `struct topo_obj`.  `unspecified_node` is the address of the
static variable of that name (`&unspecified_node`); `obj n` is the address of
an object in dynamic storage, either obtained from `calloc` by `add_one_node`
or owned by another subsystem (packages).  `NULL` is `none` of `Option Addr`. -/
inductive Addr where
  | unspecified_node : Addr
  | obj : Nat → Addr
  deriving DecidableEq, Repr

/-- The `enum obj_type_e` of `types.h` (not under `src/`); `calloc` yields the
first constant, whose value is zero. -/
inductive obj_type_e where
  | OBJ_TYPE_CPU : obj_type_e
  | OBJ_TYPE_CACHE : obj_type_e
  | OBJ_TYPE_PACKAGE : obj_type_e
  | OBJ_TYPE_NODE : obj_type_e
  deriving DecidableEq, Repr

/-- A CPU bitmap `cpumask_t`, as the natural number whose bit `i` is CPU `i`. -/
abbrev cpumask_t := Nat

/-- The macro `CPU_MASK_ALL`: the low `NR_CPUS` bits set.  `NR_CPUS` is a
compile-time constant of a header that is not under `src/`; it is a parameter. -/
def CPU_MASK_ALL (NR_CPUS : Nat) : cpumask_t := 2 ^ NR_CPUS - 1

/-- The value `cpus_clear(mask)` leaves in `mask`: no bit set. -/
def cpus_clear : cpumask_t := 0

/-- Targets of the field `obj_type_list` (a `GList **`): the only list whose
address `numa.c` stores is `numa_nodes`. -/
inductive list_ref where
  | numa_nodes : list_ref
  deriving DecidableEq, Repr

/-- The fields of `struct topo_obj` that `numa.c` reads or writes.  A `GList *`
is modelled by the sequence of its data pointers (`NULL` is `[]`); interrupt
descriptors are owned elsewhere and appear by address only. -/
structure topo_obj where
  load : Nat
  number : Int
  obj_type : obj_type_e
  mask : cpumask_t
  interrupts : List Nat
  children : List Addr
  parent : Option Addr
  obj_type_list : Option list_ref
  deriving DecidableEq, Repr

/-- One invocation of the `log` macro (of `irqbalance.h`, not under `src/`) as
`numa.c` performs it in `add_package_to_node`: level `LOG_INFO`, the message
"Could not find numa node for node id %d" and its argument. -/
structure log_call where
  nodeid : Int
  deriving DecidableEq, Repr

/-- Program state seen by `numa.c`.

* `numa_avail`: the global flag of that name (nonzero is `true`);
* `numa_nodes`: the global `GList *numa_nodes`;
* `mem`: the contents of every `struct topo_obj`, the cell at
  `Addr.unspecified_node` being the static variable `unspecified_node`; the
  map is total, so a read through a pointer that was released still yields
  the last contents of the object;
* `brk`: dynamic storage below this index has been handed out by `calloc`;
* `freed`: the addresses passed to `free`, in call order;
* `log`: the `log` invocations, in call order. -/
structure State where
  numa_avail : Bool
  numa_nodes : List Addr
  mem : Addr → topo_obj
  brk : Nat
  freed : List Addr
  log : List log_call

/-- Assignment through a pointer: `*a = v`. -/
def State.store (s : State) (a : Addr) (v : topo_obj) : State :=
  { s with mem := Function.update s.mem a v }

/-- The static initialiser `unspecified_node_template`. -/
def unspecified_node_template (NR_CPUS : Nat) : topo_obj :=
  { load := 0
    number := -1
    obj_type := obj_type_e.OBJ_TYPE_NODE
    mask := CPU_MASK_ALL NR_CPUS
    interrupts := []
    children := []
    parent := none
    obj_type_list := some list_ref.numa_nodes }

/-- The all-zero object `calloc(1, sizeof(struct topo_obj))` returns. -/
def zeroed_obj : topo_obj :=
  { load := 0
    number := 0
    obj_type := obj_type_e.OBJ_TYPE_CPU
    mask := 0
    interrupts := []
    children := []
    parent := none
    obj_type_list := none }

/-! ## C library and GLib functions used by `numa.c` -/

/-- GLib `g_list_append`: the data pointer goes to the end of the list. -/
def g_list_append (l : List Addr) (data : Addr) : List Addr := l ++ [data]

/-- GLib `g_list_find_custom (list, data, func)`: the first element on which
`func` returns 0, or `NULL`.  `func e` stands for `func (e, data)`. -/
def g_list_find_custom (func : Addr → Int) : List Addr → Option Addr
  | [] => none
  | e :: rest => if func e = 0 then some e else g_list_find_custom func rest

/-- Whether the string `s` begins with the string `t`. -/
def starts_with : List Char → List Char → Bool
  | _, [] => true
  | [], _ :: _ => false
  | c :: s, d :: t => c == d && starts_with s t

/-- C `strstr (haystack, needle)`: the offset of the first occurrence of
`needle` in `haystack`, or `NULL`. -/
def strstr : List Char → List Char → Option Nat
  | [], needle => if starts_with [] needle then some 0 else none
  | c :: hs, needle =>
    if starts_with (c :: hs) needle then some 0
    else (strstr hs needle).map (fun k => k + 1)

/-- C `isspace` in the "C" locale. -/
def isspace (c : Char) : Bool := c.toNat == 32 || (9 ≤ c.toNat && c.toNat ≤ 13)

/-- C `isdigit`. -/
def isdigit (c : Char) : Bool := 48 ≤ c.toNat && c.toNat ≤ 57

/-- The exact value of the longest run of decimal digits at the start of a
string, continuing from the accumulator `acc`. -/
def digits_value : List Char → Nat → Nat
  | [], acc => acc
  | c :: cs, acc => if isdigit c then digits_value cs (10 * acc + (c.toNat - 48)) else acc

/-- `ULONG_MAX` where `unsigned long` has 64 bits (LP64, as on the Linux hosts
the daemon runs on). -/
def ULONG_MAX : Nat := 2 ^ 64 - 1

/-- The sign part of a `strtoul` subject sequence: whether a minus sign was
read, and the rest of the string. -/
def strtoul_sign : List Char → Bool × List Char
  | c :: cs => if c.toNat == 45 then (true, cs) else if c.toNat == 43 then (false, cs) else (false, c :: cs)
  | [] => (false, [])

/-- C `strtoul (nptr, NULL, 10)`: white space is skipped, an optional sign is
read, then the longest run of decimal digits; no digits give 0, a value that
does not fit gives `ULONG_MAX`, and a minus sign negates the value in the type
`unsigned long`. -/
def strtoul (nptr : List Char) : Nat :=
  let sg := strtoul_sign (nptr.dropWhile isspace)
  let v := digits_value sg.2 0
  if ULONG_MAX < v then ULONG_MAX
  else if sg.1 then (2 ^ 64 - v) % 2 ^ 64
  else v

/-- Conversion of an `unsigned long` to `int` (32 bits, two's complement), as
in the assignment `new->number = strtoul (...)`. -/
def to_int (v : Nat) : Int :=
  if v % 2 ^ 32 < 2 ^ 31 then ((v % 2 ^ 32 : Nat) : Int) else ((v % 2 ^ 32 : Nat) : Int) - 2 ^ 32

/-- The pointer `&s[off]` of a string: the suffix at that offset, defined when
the offset is inside the string (its terminator included). -/
def str_at (s : List Char) (off : Nat) : Option (List Char) :=
  if off ≤ s.length then some (s.drop off) else none

/-! ## The host -/

/-- What an opened `cpumap` stream delivers: the value of `ferror (f)`, and
the return value and buffer of `getline (&cpustr, &blen, f)`. -/
structure cpumap_stream where
  ferror : Bool
  getline_ret : Int
  cpustr : String

/-- What the host answers during one call of `add_one_node`: whether `calloc`
succeeds, and the stream `fopen` returns (`none` for `NULL`). -/
structure ingest_outcome where
  calloc_ok : Bool
  fopen : Option cpumap_stream

/-- One entry `readdir` returns, with the host's answers in case the entry is
ingested. -/
structure dirent where
  d_type : Nat
  d_name : String
  outcome : ingest_outcome

/-- The constant `DT_DIR` of `dirent.h`. -/
def DT_DIR : Nat := 4

/-- The host during one `build_numa_node_list`: the result of
`opendir (SYSFS_NODE_PATH)` (`none` when it fails), as the sequence of entries
`readdir` then returns. -/
structure Host where
  opendir : Option (List dirent)

/-- The parts of the program that are compiled in from outside `numa.c`: the
constant `NR_CPUS` and the parser `cpumask_parse_user (buf, len, dst)`, given
as the mask it leaves in `dst`. -/
structure External where
  NR_CPUS : Nat
  cpumask_parse_user : String → Int → cpumask_t

/-! ## The functions of `numa.c` -/

/-- Source `add_one_node (nodename)`. -/
def add_one_node (ext : External) (w : ingest_outcome) (nodename : List Char) (s : State) :
    State :=
  if w.calloc_ok = false then s
  else
    let new := Addr.obj s.brk
    let s1 : State := { s with mem := Function.update s.mem new zeroed_obj, brk := s.brk + 1 }
    match w.fopen with
    | none => { s1 with freed := s1.freed ++ [new] }
    | some f =>
      let mask : cpumask_t :=
        if f.ferror then cpus_clear
        else if f.getline_ret ≤ 0 then cpus_clear
        else ext.cpumask_parse_user f.cpustr f.getline_ret
      let s2 := s1.store new { s1.mem new with mask := mask }
      let s3 := s2.store new { s2.mem new with obj_type := obj_type_e.OBJ_TYPE_NODE }
      let number : Int :=
        match str_at nodename 4 with
        | some suffix => to_int (strtoul suffix)
        | none => 0
      let s4 := s3.store new { s3.mem new with number := number }
      let s5 := s4.store new { s4.mem new with obj_type_list := some list_ref.numa_nodes }
      { s5 with numa_nodes := g_list_append s5.numa_nodes new }

/-- The filter of the scan loop:
`entry->d_type == DT_DIR && strstr (entry->d_name, "node")`. -/
def is_node_dir (e : dirent) : Bool :=
  e.d_type == DT_DIR && (strstr e.d_name.data "node".data).isSome

/-- The `do ... while` loop of `build_numa_node_list` over the entries
`readdir` returns until it returns `NULL`. -/
def readdir_loop (ext : External) : List dirent → State → State
  | [], s => s
  | e :: rest, s =>
    if is_node_dir e then readdir_loop ext rest (add_one_node ext e.outcome e.d_name.data s)
    else readdir_loop ext rest s

/-- Source `build_numa_node_list ()`. -/
def build_numa_node_list (ext : External) (host : Host) (s : State) : State :=
  let s1 := s.store Addr.unspecified_node (unspecified_node_template ext.NR_CPUS)
  let s2 : State := { s1 with numa_nodes := g_list_append s1.numa_nodes Addr.unspecified_node }
  if s2.numa_avail = false then s2
  else
    match host.opendir with
    | none => s2
    | some entries => readdir_loop ext entries s2

/-- Source `free_numa_node (data)`.  `g_list_free` releases the spines of
`obj->children` and `obj->interrupts` and writes to no `struct topo_obj`: both
fields keep their value. -/
def free_numa_node (data : Addr) (s : State) : State :=
  if data ≠ Addr.unspecified_node then { s with freed := s.freed ++ [data] } else s

/-- GLib `g_list_free_full (list, free_func)`: `free_func` is called on the
data of every element, in list order. -/
def g_list_free_full (free_func : Addr → State → State) : List Addr → State → State
  | [], s => s
  | e :: rest, s => g_list_free_full free_func rest (free_func e s)

/-- Source `free_numa_node_list ()`. -/
def free_numa_node_list (s : State) : State :=
  let s1 := g_list_free_full free_numa_node s.numa_nodes s
  { s1 with numa_nodes := [] }

/-- Source `compare_node (a, b)`, on the `number` fields of the two objects. -/
def compare_node (a b : Int) : Int := if a = b then 0 else 1

/-- Source `get_numa_node (nodeid)`. -/
def get_numa_node (s : State) (nodeid : Int) : Option Addr :=
  if s.numa_avail = false then some Addr.unspecified_node
  else if nodeid = -1 then some Addr.unspecified_node
  else g_list_find_custom (fun e => compare_node (s.mem e).number nodeid) s.numa_nodes

/-- Source `add_package_to_node (p, nodeid)`. -/
def add_package_to_node (s : State) (p : Addr) (nodeid : Int) : State :=
  match get_numa_node s nodeid with
  | none => { s with log := s.log ++ [{ nodeid := nodeid }] }
  | some node =>
    if (s.mem p).parent = none then
      let s1 := s.store node { s.mem node with children := g_list_append (s.mem node).children p }
      s1.store p { s1.mem p with parent := some node }
    else s

/-! ## Derived descriptions of the scan, the teardown and the attachments -/

/-- The node number `add_one_node` derives from a directory name:
`strtoul (&nodename[4], NULL, 10)` stored in the `int` field `number`. -/
def node_number (nodename : List Char) : Int :=
  match str_at nodename 4 with
  | some suffix => to_int (strtoul suffix)
  | none => 0

/-- The object `add_one_node` leaves at the new address when the `cpumap`
file opens. -/
def new_node (ext : External) (f : cpumap_stream) (nodename : List Char) : topo_obj :=
  { zeroed_obj with
    mask := if f.ferror then cpus_clear
            else if f.getline_ret ≤ 0 then cpus_clear
            else ext.cpumask_parse_user f.cpustr f.getline_ret
    obj_type := obj_type_e.OBJ_TYPE_NODE
    number := node_number nodename
    obj_type_list := some list_ref.numa_nodes }

/-- The node object a directory entry contributes to the list, if any: the
entry passes the filter of the scan loop, `calloc` succeeds and the `cpumap`
file opens. -/
def ingest (ext : External) (e : dirent) : Option topo_obj :=
  if is_node_dir e && e.outcome.calloc_ok then
    e.outcome.fopen.map (fun f => new_node ext f e.d_name.data)
  else none

/-- The directory entries the scan loop of `build_numa_node_list` visits: none
when NUMA is unavailable or `opendir` fails. -/
def scanned_entries (host : Host) (numa_avail : Bool) : List dirent :=
  if numa_avail = false then []
  else
    match host.opendir with
    | none => []
    | some entries => entries

/-- Whether the scan creates a node for a directory entry: the entry passes
the filter, `calloc` succeeds and the `cpumap` file opens. -/
def creates_node (e : dirent) : Bool :=
  is_node_dir e && e.outcome.calloc_ok && e.outcome.fopen.isSome

/-- The names of the entries a scan turns into nodes, in scan order. -/
def ingested_names (es : List dirent) : List String :=
  (es.filter creates_node).map (fun e => e.d_name)

/-- The name the kernel gives the directory of node `k`: `node` followed by
the decimal numeral of `k`. -/
def kernel_node_name (k : Nat) : String := "node" ++ toString k

/-- A sequence of `add_package_to_node (p, nodeid)` calls, in call order. -/
def attach_all (s : State) (calls : List (Addr × Int)) : State :=
  calls.foldl (fun st c => add_package_to_node st c.1 c.2) s

/-- The stream `add_one_node` obtains from `fopen`: `none` when `fopen`
returns `NULL`, and also when `calloc` failed before, in which case `fopen` is
not reached. -/
def opened_stream (w : ingest_outcome) : Option cpumap_stream :=
  if w.calloc_ok then w.fopen else none

/-- The addresses one `free_numa_node_list` passes to `free`, in call order:
what the call adds to the record of released objects. -/
def released_by_teardown (s : State) : List Addr :=
  (free_numa_node_list s).freed.drop s.freed.length

/-- Whether a directory entry is one the build makes a node of: it is a
directory, its name contains `node`, and its `cpumap` file opens. -/
def becomes_node (e : dirent) : Bool :=
  e.d_type == DT_DIR && (strstr e.d_name.data "node".data).isSome &&
    (opened_stream e.outcome).isSome

/-- The parent and children fields are consistent on the node list: every
element of the children of a listed node has that node as parent, and no
children list has a repeated element. -/
def children_consistent (s : State) : Prop :=
  (∀ n ∈ s.numa_nodes, ∀ c ∈ (s.mem n).children, (s.mem c).parent = some n) ∧
  (∀ n ∈ s.numa_nodes, (s.mem n).children.Nodup)

/-- The state after a build followed by a sequence of `add_package_to_node`
calls. -/
def populated_state (ext : External) (host : Host) (s : State) (calls : List (Addr × Int)) :
    State :=
  attach_all (build_numa_node_list ext host s) calls

/-! ## Example hosts and states -/

/-- An instance of the external parts: 16 CPUs and a parser that knows the two
`cpumap` lines of the example hosts and gives the empty mask otherwise. -/
def example_ext : External :=
  { NR_CPUS := 16
    cpumask_parse_user := fun buf _ =>
      if buf = "000000ff\n" then 255 else if buf = "0000ff00\n" then 65280 else 0 }

/-- A state before the first build: an empty node list, and two objects of
another subsystem (packages, without parent) at `obj 0` and `obj 1`. -/
def boot_state (numa_avail : Bool) : State :=
  { numa_avail := numa_avail
    numa_nodes := []
    mem := fun _ => zeroed_obj
    brk := 2
    freed := []
    log := [] }

/-- A `cpumap` stream whose single line is `line`. -/
def cpumap_line (line : String) : cpumap_stream :=
  { ferror := false, getline_ret := line.length, cpustr := line }

/-- A directory entry of type `DT_DIR` whose `cpumap` file holds `line`. -/
def node_dir (name line : String) : dirent :=
  { d_type := DT_DIR
    d_name := name
    outcome := { calloc_ok := true, fopen := some (cpumap_line line) } }

/-- A host with the nodes `node0` and `node1`. -/
def two_node_host : Host :=
  { opendir := some [node_dir "node0" "000000ff\n", node_dir "node1" "0000ff00\n"] }

/-- A host with the single node `node0`. -/
def one_node_host : Host :=
  { opendir := some [node_dir "node0" "000000ff\n"] }

/-- The state after the build on the two-node host. -/
def two_node_state : State := build_numa_node_list example_ext two_node_host (boot_state true)

/-- The state after the build on the one-node host. -/
def one_node_state : State := build_numa_node_list example_ext one_node_host (boot_state true)

/-- A host whose node directory has entries with names no kernel produces:
`node0` and `node00` both parse to 0, and `node-1` parses to -1. -/
def odd_names_host : Host :=
  { opendir := some [node_dir "node0" "000000ff\n", node_dir "node00" "0000ff00\n",
      node_dir "node-1" "000000ff\n"] }

/-- The state after the build on the host with the odd names. -/
def odd_names_state : State :=
  build_numa_node_list example_ext odd_names_host (boot_state true)

/-- The two-node state after package `obj 0` has been attached to node 0. -/
def attached_state : State := add_package_to_node two_node_state (Addr.obj 0) 0

/-- A host without NUMA whose node directory would nevertheless list two
nodes. -/
def no_numa_state : State := build_numa_node_list example_ext two_node_host (boot_state false)

/-- A host on which `opendir` fails. -/
def no_dir_host : Host := { opendir := none }

/-- An opened `cpumap` stream on which `getline` fails. -/
def unreadable_stream : cpumap_stream := { ferror := false, getline_ret := -1, cpustr := "" }

/-- A host whose node directory lists `node0`, with a `cpumap` file that would
open, while `calloc` fails during the ingestion. -/
def no_memory_host : Host :=
  { opendir := some [
      { d_type := DT_DIR
        d_name := "node0"
        outcome := { calloc_ok := false, fopen := some (cpumap_line "000000ff\n") } }] }

/-! ## The scan loop -/

theorem add_one_node_no_memory (ext : External) (w : ingest_outcome) (n : List Char) (s : State)
    (h : w.calloc_ok = false) : add_one_node ext w n s = s := by
  simp [add_one_node, h]

theorem add_one_node_no_file (ext : External) (w : ingest_outcome) (n : List Char) (s : State)
    (h : w.calloc_ok = true) (hf : w.fopen = none) :
    add_one_node ext w n s =
      { s with mem := Function.update s.mem (Addr.obj s.brk) zeroed_obj
               brk := s.brk + 1
               freed := s.freed ++ [Addr.obj s.brk] } := by
  simp [add_one_node, h, hf]

theorem add_one_node_file (ext : External) (w : ingest_outcome) (n : List Char) (s : State)
    (f : cpumap_stream) (h : w.calloc_ok = true) (hf : w.fopen = some f) :
    add_one_node ext w n s =
      { s with mem := Function.update s.mem (Addr.obj s.brk) (new_node ext f n)
               brk := s.brk + 1
               numa_nodes := s.numa_nodes ++ [Addr.obj s.brk] } := by
  simp [add_one_node, h, hf, State.store, new_node, node_number, g_list_append]

/-- What the scan loop does to a state: it appends to the node list one fresh
object per ingested entry, in scan order, holding the objects `ingest` gives;
it writes to no object that existed before. -/
theorem readdir_loop_spec (ext : External) : ∀ (es : List dirent) (s : State),
    ∃ news : List Addr,
      (readdir_loop ext es s).numa_nodes = s.numa_nodes ++ news ∧
      news.map (readdir_loop ext es s).mem = es.filterMap (ingest ext) ∧
      (∀ a ∈ news, ∃ k, a = Addr.obj k ∧ s.brk ≤ k ∧ k < (readdir_loop ext es s).brk) ∧
      news.Nodup ∧
      s.brk ≤ (readdir_loop ext es s).brk ∧
      (∀ a, (∀ k, a = Addr.obj k → k < s.brk) →
        (readdir_loop ext es s).mem a = s.mem a) ∧
      (readdir_loop ext es s).numa_avail = s.numa_avail ∧
      (readdir_loop ext es s).log = s.log := by
  intro es
  induction es with
  | nil =>
    intro s
    exact ⟨[], by simp [readdir_loop], by simp [readdir_loop], by simp, by simp,
      by simp [readdir_loop], by simp [readdir_loop], by simp [readdir_loop], by simp [readdir_loop]⟩
  | cons e rest ih =>
    intro s
    by_cases hd : is_node_dir e = true
    · cases hc : e.outcome.calloc_ok with
      | false =>
        have hs : readdir_loop ext (e :: rest) s = readdir_loop ext rest s := by
          simp [readdir_loop, hd, add_one_node_no_memory ext _ _ s hc]
        have hi : ingest ext e = none := by simp [ingest, hc]
        obtain ⟨news, h1, h2, h3, h4, h5, h6, h7, h8⟩ := ih s
        rw [hs]
        exact ⟨news, h1, by simp [List.filterMap_cons, hi, h2], h3, h4, h5, h6, h7, h8⟩
      | true =>
        cases hf : e.outcome.fopen with
        | none =>
          have hs : readdir_loop ext (e :: rest) s = readdir_loop ext rest
              { s with mem := Function.update s.mem (Addr.obj s.brk) zeroed_obj
                       brk := s.brk + 1
                       freed := s.freed ++ [Addr.obj s.brk] } := by
            simp [readdir_loop, hd, add_one_node_no_file ext _ _ s hc hf]
          have hi : ingest ext e = none := by simp [ingest, hf]
          obtain ⟨news, h1, h2, h3, h4, h5, h6, h7, h8⟩ := ih
            { s with mem := Function.update s.mem (Addr.obj s.brk) zeroed_obj
                     brk := s.brk + 1
                     freed := s.freed ++ [Addr.obj s.brk] }
          rw [hs]
          refine ⟨news, h1, by simp [List.filterMap_cons, hi, h2], ?_, h4, ?_, ?_, h7, h8⟩
          · intro a ha
            obtain ⟨k, hk, hk1, hk2⟩ := h3 a ha
            exact ⟨k, hk, by simp at hk1; omega, hk2⟩
          · simp at h5; omega
          · intro a ha
            rw [h6 a (fun k hk => by have := ha k hk; simp; omega)]
            have hne : a ≠ Addr.obj s.brk := fun h => by have := ha _ h; omega
            simp [Function.update_noteq hne]
        | some f =>
          have hs : readdir_loop ext (e :: rest) s = readdir_loop ext rest
              { s with mem := Function.update s.mem (Addr.obj s.brk) (new_node ext f e.d_name.data)
                       brk := s.brk + 1
                       numa_nodes := s.numa_nodes ++ [Addr.obj s.brk] } := by
            simp [readdir_loop, hd, add_one_node_file ext _ _ s f hc hf]
          have hi : ingest ext e = some (new_node ext f e.d_name.data) := by
            simp [ingest, hf, hd, hc]
          obtain ⟨news, h1, h2, h3, h4, h5, h6, h7, h8⟩ := ih
            { s with mem := Function.update s.mem (Addr.obj s.brk) (new_node ext f e.d_name.data)
                     brk := s.brk + 1
                     numa_nodes := s.numa_nodes ++ [Addr.obj s.brk] }
          rw [hs]
          simp only at h1 h3 h5 h6 h7 h8
          refine ⟨Addr.obj s.brk :: news, by simp [h1], ?_, ?_, ?_, by omega, ?_, h7, h8⟩
          · rw [List.filterMap_cons, hi, List.map_cons, h2]
            congr 1
            rw [h6 _ (fun k hk => by cases hk; omega)]
            simp
          · intro a ha
            rcases List.mem_cons.1 ha with rfl | ha
            · exact ⟨s.brk, rfl, le_refl _, by omega⟩
            · obtain ⟨k, hk, hk1, hk2⟩ := h3 a ha
              exact ⟨k, hk, by omega, hk2⟩
          · refine List.nodup_cons.2 ⟨fun hmem => ?_, h4⟩
            obtain ⟨k, hk, hk1, _⟩ := h3 _ hmem
            cases hk
            omega
          · intro a ha
            rw [h6 a (fun k hk => by have := ha k hk; omega)]
            have hne : a ≠ Addr.obj s.brk := fun h => by have := ha _ h; omega
            simp [Function.update_noteq hne]
    · have hs : readdir_loop ext (e :: rest) s = readdir_loop ext rest s := by
        simp [readdir_loop, hd]
      have hi : ingest ext e = none := by simp [ingest, hd]
      obtain ⟨news, h1, h2, h3, h4, h5, h6, h7, h8⟩ := ih s
      rw [hs]
      exact ⟨news, h1, by simp [List.filterMap_cons, hi, h2], h3, h4, h5, h6, h7, h8⟩

/-- What `build_numa_node_list` does to a state: the static sentinel is reset
to the template and appended, followed by one fresh object per ingested entry. -/
theorem build_numa_node_list_spec (ext : External) (host : Host) (s : State) :
    ∃ news : List Addr,
      (build_numa_node_list ext host s).numa_nodes
        = s.numa_nodes ++ Addr.unspecified_node :: news ∧
      (build_numa_node_list ext host s).mem Addr.unspecified_node
        = unspecified_node_template ext.NR_CPUS ∧
      news.map (build_numa_node_list ext host s).mem
        = (scanned_entries host s.numa_avail).filterMap (ingest ext) ∧
      (∀ a ∈ news, ∃ k, a = Addr.obj k ∧ s.brk ≤ k ∧ k < (build_numa_node_list ext host s).brk) ∧
      news.Nodup ∧
      (∀ k, k < s.brk → (build_numa_node_list ext host s).mem (Addr.obj k) = s.mem (Addr.obj k)) ∧
      (build_numa_node_list ext host s).numa_avail = s.numa_avail ∧
      (build_numa_node_list ext host s).log = s.log := by
  have key : ∀ es : List dirent, ∃ news : List Addr,
      (readdir_loop ext es
          { s.store Addr.unspecified_node (unspecified_node_template ext.NR_CPUS) with
            numa_nodes := s.numa_nodes ++ [Addr.unspecified_node] }).numa_nodes
        = s.numa_nodes ++ Addr.unspecified_node :: news ∧
      (readdir_loop ext es
          { s.store Addr.unspecified_node (unspecified_node_template ext.NR_CPUS) with
            numa_nodes := s.numa_nodes ++ [Addr.unspecified_node] }).mem Addr.unspecified_node
        = unspecified_node_template ext.NR_CPUS ∧
      news.map (readdir_loop ext es
          { s.store Addr.unspecified_node (unspecified_node_template ext.NR_CPUS) with
            numa_nodes := s.numa_nodes ++ [Addr.unspecified_node] }).mem
        = es.filterMap (ingest ext) ∧
      (∀ a ∈ news, ∃ k, a = Addr.obj k ∧ s.brk ≤ k ∧ k < (readdir_loop ext es
          { s.store Addr.unspecified_node (unspecified_node_template ext.NR_CPUS) with
            numa_nodes := s.numa_nodes ++ [Addr.unspecified_node] }).brk) ∧
      news.Nodup ∧
      (∀ k, k < s.brk → (readdir_loop ext es
          { s.store Addr.unspecified_node (unspecified_node_template ext.NR_CPUS) with
            numa_nodes := s.numa_nodes ++ [Addr.unspecified_node] }).mem (Addr.obj k)
          = s.mem (Addr.obj k)) ∧
      (readdir_loop ext es
          { s.store Addr.unspecified_node (unspecified_node_template ext.NR_CPUS) with
            numa_nodes := s.numa_nodes ++ [Addr.unspecified_node] }).numa_avail = s.numa_avail ∧
      (readdir_loop ext es
          { s.store Addr.unspecified_node (unspecified_node_template ext.NR_CPUS) with
            numa_nodes := s.numa_nodes ++ [Addr.unspecified_node] }).log = s.log := by
    intro es
    obtain ⟨news, h1, h2, h3, h4, _, h6, h7, h8⟩ := readdir_loop_spec ext es
      { s.store Addr.unspecified_node (unspecified_node_template ext.NR_CPUS) with
        numa_nodes := s.numa_nodes ++ [Addr.unspecified_node] }
    refine ⟨news, by simp [h1], ?_, h2, h3, h4, ?_, by simpa [State.store] using h7,
      by simpa [State.store] using h8⟩
    · rw [h6 _ (fun k hk => by cases hk)]
      simp [State.store]
    · intro k hk
      rw [h6 _ (fun j hj => by cases hj; simpa [State.store] using hk)]
      simp [State.store]
  cases hav : s.numa_avail with
  | false =>
    obtain ⟨news, h⟩ := key []
    have hb : build_numa_node_list ext host s = readdir_loop ext []
        { s.store Addr.unspecified_node (unspecified_node_template ext.NR_CPUS) with
          numa_nodes := s.numa_nodes ++ [Addr.unspecified_node] } := by
      simp [build_numa_node_list, readdir_loop, State.store, g_list_append, hav]
    rw [hb]
    simp only [scanned_entries, if_true, hav] at h ⊢
    exact ⟨news, h⟩
  | true =>
    cases hdir : host.opendir with
    | none =>
      obtain ⟨news, h⟩ := key []
      have hb : build_numa_node_list ext host s = readdir_loop ext []
          { s.store Addr.unspecified_node (unspecified_node_template ext.NR_CPUS) with
            numa_nodes := s.numa_nodes ++ [Addr.unspecified_node] } := by
        simp [build_numa_node_list, readdir_loop, State.store, g_list_append, hav, hdir]
      rw [hb]
      simp only [scanned_entries, hav, hdir] at h ⊢
      exact ⟨news, by simpa using h⟩
    | some es =>
      obtain ⟨news, h⟩ := key es
      have hb : build_numa_node_list ext host s = readdir_loop ext es
          { s.store Addr.unspecified_node (unspecified_node_template ext.NR_CPUS) with
            numa_nodes := s.numa_nodes ++ [Addr.unspecified_node] } := by
        simp [build_numa_node_list, State.store, g_list_append, hav, hdir]
      rw [hb]
      simp only [scanned_entries, hav, hdir] at h ⊢
      exact ⟨news, by simpa using h⟩

/-! ## Lookup -/

theorem g_list_find_custom_eq_none (func : Addr → Int) (l : List Addr) :
    g_list_find_custom func l = none ↔ ∀ a ∈ l, func a ≠ 0 := by
  induction l with
  | nil => simp [g_list_find_custom]
  | cons e rest ih =>
    by_cases h : func e = 0
    · simp [g_list_find_custom, h]
    · simp [g_list_find_custom, h, ih]

theorem g_list_find_custom_eq_some (func : Addr → Int) (l : List Addr) (n : Addr)
    (h : g_list_find_custom func l = some n) :
    ∃ pre post, l = pre ++ n :: post ∧ func n = 0 ∧ ∀ m ∈ pre, func m ≠ 0 := by
  induction l with
  | nil => simp [g_list_find_custom] at h
  | cons e rest ih =>
    by_cases he : func e = 0
    · simp [g_list_find_custom, he] at h
      subst h
      exact ⟨[], rest, rfl, he, by simp⟩
    · simp [g_list_find_custom, he] at h
      obtain ⟨pre, post, h1, h2, h3⟩ := ih h
      refine ⟨e :: pre, post, by simp [h1], h2, ?_⟩
      intro m hm
      rcases List.mem_cons.1 hm with rfl | hm
      · exact he
      · exact h3 m hm

theorem compare_node_eq_zero (a b : Int) : compare_node a b = 0 ↔ a = b := by
  unfold compare_node
  split <;> simp_all

/-- With NUMA available and an id other than -1, `get_numa_node` returns `NULL`
exactly when no element of the list has that number. -/
theorem get_numa_node_eq_none_iff (s : State) (id : Int) (hav : s.numa_avail = true)
    (hid : id ≠ -1) :
    get_numa_node s id = none ↔ ∀ a ∈ s.numa_nodes, (s.mem a).number ≠ id := by
  have hg : get_numa_node s id
      = g_list_find_custom (fun e => compare_node (s.mem e).number id) s.numa_nodes := by
    simp [get_numa_node, hav, hid]
  rw [hg, g_list_find_custom_eq_none]
  simp [compare_node_eq_zero]

/-! ## Node numbers -/

theorem digitChar_isdigit (d : Nat) (rest : List Char) (h : d < 10) :
    isdigit (Nat.digitChar d) = true ∧ (Nat.digitChar d).toNat - 48 = d ∧
    isspace (Nat.digitChar d) = false ∧
    strtoul_sign (Nat.digitChar d :: rest) = (false, Nat.digitChar d :: rest) := by
  interval_cases d <;> exact ⟨by decide, by decide, by decide, by simp [strtoul_sign, Nat.digitChar]⟩

theorem digits_value_toDigitsCore : ∀ (fuel n : Nat) (ds : List Char), n < fuel →
    digits_value (Nat.toDigitsCore 10 fuel n ds) 0 = digits_value ds n := by
  intro fuel
  induction fuel with
  | zero => intro n ds h; omega
  | succ f ih =>
    intro n ds h
    have hd := digitChar_isdigit (n % 10) ds (Nat.mod_lt _ (by decide))
    unfold Nat.toDigitsCore
    by_cases h0 : n / 10 = 0
    · simp only [h0, if_true]
      have hn : n % 10 = n := by omega
      rw [digits_value, if_pos hd.1, hd.2.1, Nat.mul_zero, Nat.zero_add, hn]
    · simp only [h0, if_false]
      rw [ih (n / 10) _ (by omega)]
      simp only [digits_value, hd.1, hd.2.1, if_true]
      congr 1
      omega

theorem toDigitsCore_head_aux : ∀ (fuel n d0 : Nat) (rest0 : List Char), d0 < 10 →
    ∃ d rest, d < 10 ∧
      Nat.toDigitsCore 10 fuel n (Nat.digitChar d0 :: rest0) = Nat.digitChar d :: rest := by
  intro fuel
  induction fuel with
  | zero => intro n d0 rest0 h; exact ⟨d0, rest0, h, by simp [Nat.toDigitsCore]⟩
  | succ f ih =>
    intro n d0 rest0 _
    unfold Nat.toDigitsCore
    by_cases h0 : n / 10 = 0
    · exact ⟨n % 10, Nat.digitChar d0 :: rest0, Nat.mod_lt _ (by decide), by simp [h0]⟩
    · simp only [h0, if_false]
      exact ih _ _ _ (Nat.mod_lt _ (by decide))

theorem toDigitsCore_head (fuel n : Nat) :
    ∃ d rest, d < 10 ∧ Nat.toDigitsCore 10 (fuel + 1) n [] = Nat.digitChar d :: rest := by
  unfold Nat.toDigitsCore
  by_cases h0 : n / 10 = 0
  · exact ⟨n % 10, [], Nat.mod_lt _ (by decide), by simp [h0]⟩
  · simp only [h0, if_false]
    exact toDigitsCore_head_aux _ _ _ _ (Nat.mod_lt _ (by decide))

/-- The function `strtoul` reads back the decimal numeral of a number that fits. -/
theorem strtoul_repr (k : Nat) (h : k ≤ ULONG_MAX) : strtoul (Nat.repr k).data = k := by
  have hv : digits_value (Nat.repr k).data 0 = k := by
    simp only [Nat.repr, Nat.toDigits, List.asString]
    rw [digits_value_toDigitsCore _ _ _ (Nat.lt_succ_self k)]
    rfl
  obtain ⟨d, rest, hd, hr⟩ := toDigitsCore_head k k
  have hdata : (Nat.repr k).data = Nat.digitChar d :: rest := by
    simp only [Nat.repr, Nat.toDigits, List.asString]
    exact hr
  have hc := digitChar_isdigit d rest hd
  unfold strtoul
  have hdw : List.dropWhile isspace (Nat.repr k).data = (Nat.repr k).data := by
    rw [hdata]
    simp [List.dropWhile, hc.2.2.1]
  simp only [hdw]
  have hsg : strtoul_sign (Nat.repr k).data = (false, (Nat.repr k).data) := by
    rw [hdata]; exact hc.2.2.2
  simp only [hsg, hv]
  simp [Nat.not_lt.2 h]

theorem node_number_kernel_name (k : Nat) (h : k < 2 ^ 31) :
    node_number ("node" ++ toString k).data = (k : Int) := by
  have hdata : ("node" ++ toString k).data = 'n' :: 'o' :: 'd' :: 'e' :: (Nat.repr k).data := by
    simp [String.data_append]
    rfl
  have hk : k ≤ ULONG_MAX := by unfold ULONG_MAX; omega
  unfold node_number str_at
  rw [hdata]
  simp only [List.length_cons, List.drop_succ_cons, List.drop_zero]
  rw [if_pos (by omega)]
  simp only [strtoul_repr k hk]
  unfold to_int
  have : k % 2 ^ 32 = k := Nat.mod_eq_of_lt (by omega)
  rw [this, if_pos h]

theorem filterMap_ingest_number (ext : External) (es : List dirent) :
    (es.filterMap (ingest ext)).map (fun o => o.number)
      = (ingested_names es).map (fun n => node_number n.data) := by
  induction es with
  | nil => simp [ingested_names]
  | cons e rest ih =>
    unfold ingested_names at ih ⊢
    by_cases hd : is_node_dir e = true
    · cases hc : e.outcome.calloc_ok with
      | false =>
        have hi : ingest ext e = none := by simp [ingest, hc]
        have hcr : creates_node e = false := by simp [creates_node, hc]
        simp [List.filterMap_cons, hi, List.filter_cons, hcr] at ih ⊢
        exact ih
      | true =>
        cases hf : e.outcome.fopen with
        | none =>
          have hi : ingest ext e = none := by simp [ingest, hf]
          have hcr : creates_node e = false := by simp [creates_node, hf]
          simp [List.filterMap_cons, hi, List.filter_cons, hcr] at ih ⊢
          exact ih
        | some f =>
          have hi : ingest ext e = some (new_node ext f e.d_name.data) := by
            simp [ingest, hf, hd, hc]
          have hcr : creates_node e = true := by simp [creates_node, hf, hd, hc]
          simp [List.filterMap_cons, hi, List.filter_cons, hcr] at ih ⊢
          exact ⟨by simp [new_node], ih⟩
    · have hi : ingest ext e = none := by simp [ingest, hd]
      have hcr : creates_node e = false := by simp [creates_node, hd]
      simp [List.filterMap_cons, hi, List.filter_cons, hcr] at ih ⊢
      exact ih

/-- The numbers of the real nodes after a build on an empty list are the
numbers parsed from the names of the ingested entries, in scan order. -/
theorem build_numbers (ext : External) (host : Host) (s : State) (h0 : s.numa_nodes = []) :
    ∃ news : List Addr,
      (build_numa_node_list ext host s).numa_nodes = Addr.unspecified_node :: news ∧
      (∀ a ∈ news, a ≠ Addr.unspecified_node) ∧
      news.Nodup ∧
      news.map (fun a => ((build_numa_node_list ext host s).mem a).number)
        = (ingested_names (scanned_entries host s.numa_avail)).map
            (fun n => node_number n.data) := by
  obtain ⟨news, h1, _, h3, h4, h5, _⟩ := build_numa_node_list_spec ext host s
  refine ⟨news, by simp [h1, h0], ?_, h5, ?_⟩
  · intro a ha
    obtain ⟨k, hk, _⟩ := h4 a ha
    simp [hk]
  · rw [← filterMap_ingest_number ext, ← h3, List.map_map]
    rfl

/-! ## Teardown and rebuild -/

/-- The walk of `g_list_free_full` with `free_numa_node` passes every element
but the sentinel to `free`, in list order, and changes nothing else. -/
theorem g_list_free_full_free_numa_node (l : List Addr) : ∀ s : State,
    g_list_free_full free_numa_node l s
      = { s with freed := s.freed ++ l.filter (fun a => decide (a ≠ Addr.unspecified_node)) } := by
  induction l with
  | nil => intro s; simp [g_list_free_full]
  | cons e rest ih =>
    intro s
    by_cases he : e = Addr.unspecified_node
    · simp [g_list_free_full, free_numa_node, he, ih]
    · simp [g_list_free_full, free_numa_node, he, ih]

/-- Teardown empties the node list, records the released node objects, and
writes to no object: the static sentinel keeps whatever its fields held. -/
theorem free_numa_node_list_eq (s : State) :
    free_numa_node_list s
      = { s with numa_nodes := []
                 freed := s.freed
                   ++ s.numa_nodes.filter (fun a => decide (a ≠ Addr.unspecified_node)) } := by
  simp [free_numa_node_list, g_list_free_full_free_numa_node]

/-- A build that follows a teardown, from any state whatever: the sentinel is
first in the list and its fields are those of the template. -/
theorem build_after_teardown (ext : External) (host : Host) (s : State) :
    (build_numa_node_list ext host (free_numa_node_list s)).numa_nodes.head?
      = some Addr.unspecified_node ∧
    (build_numa_node_list ext host (free_numa_node_list s)).mem Addr.unspecified_node
      = unspecified_node_template ext.NR_CPUS := by
  obtain ⟨news, h1, h2, _⟩ := build_numa_node_list_spec ext host (free_numa_node_list s)
  refine ⟨?_, h2⟩
  rw [h1, free_numa_node_list_eq]
  simp

/-- The sentinel's children survive a teardown as a stale value and are reset
by the next build: package `obj 1` attached to the sentinel of the two-node
state is still in the sentinel's `children` field after `free_numa_node_list`,
and no longer after the following `build_numa_node_list`. -/
theorem stale_children_example :
    ((add_package_to_node two_node_state (Addr.obj 1) (-1)).mem
      Addr.unspecified_node).children = [Addr.obj 1] ∧
    ((free_numa_node_list (add_package_to_node two_node_state (Addr.obj 1) (-1))).mem
      Addr.unspecified_node).children = [Addr.obj 1] ∧
    ((build_numa_node_list example_ext two_node_host
      (free_numa_node_list (add_package_to_node two_node_state (Addr.obj 1) (-1)))).mem
      Addr.unspecified_node).children = [] := by
  refine ⟨by decide, by decide, by decide⟩

/-! ## The name filter -/

theorem starts_with_length : ∀ (s t : List Char), starts_with s t = true → t.length ≤ s.length := by
  intro s
  induction s with
  | nil =>
    intro t h
    cases t with
    | nil => simp
    | cons d t => simp [starts_with] at h
  | cons c s ih =>
    intro t h
    cases t with
    | nil => simp
    | cons d t =>
      simp only [starts_with, Bool.and_eq_true] at h
      have := ih t h.2
      simp only [List.length_cons]
      omega

theorem strstr_length (needle : List Char) : ∀ (hs : List Char) (k : Nat),
    strstr hs needle = some k → k + needle.length ≤ hs.length := by
  intro hs
  induction hs with
  | nil =>
    intro k h
    unfold strstr at h
    by_cases hsw : starts_with [] needle = true
    · have := starts_with_length _ _ hsw
      simp [hsw] at h
      subst h
      simpa using this
    · simp [hsw] at h
  | cons c hs ih =>
    intro k h
    unfold strstr at h
    by_cases hsw : starts_with (c :: hs) needle = true
    · have := starts_with_length _ _ hsw
      simp [hsw] at h
      subst h
      simpa using this
    · simp only [hsw, if_false, Option.map_eq_some', Bool.false_eq_true] at h
      obtain ⟨j, hj, rfl⟩ := h
      have := ih j hj
      simp only [List.length_cons]
      omega
/-- Without leading white space or sign, `strtoul` returns the value of the
leading run of digits when that value fits. -/
theorem strtoul_unsigned (suffix : List Char)
    (hlead : ∀ c rest, suffix = c :: rest → isspace c = false ∧ c.toNat ≠ 45 ∧ c.toNat ≠ 43)
    (hv : digits_value suffix 0 ≤ ULONG_MAX) : strtoul suffix = digits_value suffix 0 := by
  unfold strtoul
  cases suffix with
  | nil => simp [strtoul_sign, digits_value]
  | cons c rest =>
    obtain ⟨h1, h2, h3⟩ := hlead c rest rfl
    have hdw : List.dropWhile isspace (c :: rest) = c :: rest := by simp [List.dropWhile, h1]
    have hsg : strtoul_sign (c :: rest) = (false, c :: rest) := by simp [strtoul_sign, h2, h3]
    simp only [hdw, hsg]
    simp [Nat.not_lt.2 hv]

theorem to_int_small (v : Nat) (h : v < 2 ^ 31) : to_int v = (v : Int) := by
  unfold to_int
  have : v % 2 ^ 32 = v := Nat.mod_eq_of_lt (by omega)
  rw [this, if_pos h]

/-! ## The built list, entry by entry -/

theorem ingest_eq (ext : External) (e : dirent) :
    ingest ext e
      = if becomes_node e then
          (opened_stream e.outcome).map (fun f => new_node ext f e.d_name.data)
        else none := by
  unfold ingest becomes_node opened_stream is_node_dir
  cases e.outcome.calloc_ok <;> cases e.outcome.fopen <;>
    cases (e.d_type == DT_DIR) <;> cases (strstr e.d_name.data "node".data).isSome <;> simp

/-- A list of objects read through `mem` that equals the list of ingested
objects corresponds, element by element and in order, to the entries that
become nodes. -/
theorem forall2_of_map_eq_ingest (ext : External) (mem : Addr → topo_obj) :
    ∀ (es : List dirent) (news : List Addr), news.map mem = es.filterMap (ingest ext) →
      List.Forall₂
        (fun a e => ∃ f, opened_stream e.outcome = some f ∧ mem a = new_node ext f e.d_name.data)
        news (es.filter becomes_node) := by
  intro es
  induction es with
  | nil =>
    intro news h
    have : news = [] := by simpa using h
    subst this
    simp
  | cons e rest ih =>
    intro news h
    by_cases hb : becomes_node e = true
    · obtain ⟨f, hf⟩ : ∃ f, opened_stream e.outcome = some f := by
        have : (opened_stream e.outcome).isSome = true := by
          simp only [becomes_node, Bool.and_eq_true] at hb
          exact hb.2
        exact Option.isSome_iff_exists.1 this
      have hi : ingest ext e = some (new_node ext f e.d_name.data) := by
        rw [ingest_eq, if_pos hb, hf]
        rfl
      rw [List.filterMap_cons, hi] at h
      cases news with
      | nil => simp at h
      | cons a news =>
        simp only [List.map_cons, List.cons.injEq] at h
        rw [List.filter_cons, if_pos hb]
        exact List.Forall₂.cons ⟨f, hf, h.1⟩ (ih news h.2)
    · have hi : ingest ext e = none := by
        rw [ingest_eq, if_neg hb]
      rw [List.filterMap_cons, hi] at h
      rw [List.filter_cons, if_neg hb]
      exact ih news h

/-! ## Attachment -/

/-- The fields after an attachment that takes place: the resolved node gets
the package as last child, the package gets the node as parent, and no other
field of any object changes. -/
theorem add_package_to_node_attached (s : State) (p : Addr) (id : Int) (node : Addr)
    (hp : (s.mem p).parent = none) (hn : get_numa_node s id = some node) (a : Addr) :
    ((add_package_to_node s p id).mem a).children
      = (if a = node then (s.mem node).children ++ [p] else (s.mem a).children) ∧
    ((add_package_to_node s p id).mem a).parent
      = (if a = p then some node else (s.mem a).parent) ∧
    ((add_package_to_node s p id).mem a).number = (s.mem a).number ∧
    ((add_package_to_node s p id).mem a).mask = (s.mem a).mask ∧
    ((add_package_to_node s p id).mem a).load = (s.mem a).load ∧
    ((add_package_to_node s p id).mem a).interrupts = (s.mem a).interrupts ∧
    ((add_package_to_node s p id).mem a).obj_type = (s.mem a).obj_type ∧
    ((add_package_to_node s p id).mem a).obj_type_list = (s.mem a).obj_type_list := by
  unfold add_package_to_node
  simp only [hn, hp, if_true, State.store, g_list_append]
  by_cases hap : a = p
  · subst hap
    by_cases han : a = node
    · subst han
      simp
    · simp [Function.update_noteq han, han]
  · by_cases han : a = node
    · subst han
      simp [Function.update_noteq hap, hap]
    · simp [Function.update_noteq hap, Function.update_noteq han, hap, han]

/-- Apart from the memory and the log, `add_package_to_node` changes no part
of the state. -/
theorem add_package_to_node_globals (s : State) (p : Addr) (id : Int) :
    (add_package_to_node s p id).numa_nodes = s.numa_nodes ∧
    (add_package_to_node s p id).numa_avail = s.numa_avail ∧
    (add_package_to_node s p id).brk = s.brk ∧
    (add_package_to_node s p id).freed = s.freed := by
  unfold add_package_to_node
  cases get_numa_node s id with
  | none => simp
  | some node =>
    by_cases hp : (s.mem p).parent = none
    · simp [hp, State.store]
    · simp [hp]

/-- An attachment that does not take place, because the lookup fails or the
package has a parent, writes to no object. -/
theorem add_package_to_node_unattached (s : State) (p : Addr) (id : Int)
    (h : get_numa_node s id = none ∨ (s.mem p).parent ≠ none) :
    (add_package_to_node s p id).mem = s.mem := by
  unfold add_package_to_node
  cases hg : get_numa_node s id with
  | none => simp
  | some node =>
    rcases h with h | h
    · simp [hg] at h
    · simp [h]

/-- One `add_package_to_node` keeps the parent and children fields consistent. -/
theorem add_package_to_node_consistent (s : State) (p : Addr) (id : Int)
    (h : children_consistent s) : children_consistent (add_package_to_node s p id) := by
  have hl := (add_package_to_node_globals s p id).1
  by_cases hatt : get_numa_node s id = none ∨ (s.mem p).parent ≠ none
  · have hm := add_package_to_node_unattached s p id hatt
    unfold children_consistent
    rw [hl, hm]
    exact h
  · have hp : (s.mem p).parent = none := by
      by_contra hc
      exact hatt (Or.inr hc)
    obtain ⟨node, hn⟩ : ∃ node, get_numa_node s id = some node := by
      cases hg : get_numa_node s id with
      | none => exact absurd (Or.inl hg) hatt
      | some node => exact ⟨node, rfl⟩
    have hf := add_package_to_node_attached s p id node hp hn
    refine ⟨?_, ?_⟩
    · intro n hnl c hc
      rw [hl] at hnl
      rw [(hf n).1] at hc
      rw [(hf c).2.1]
      by_cases hcp : c = p
      · subst hcp
        rw [if_pos rfl]
        by_cases hnn : n = node
        · rw [hnn]
        · rw [if_neg hnn] at hc
          have := h.1 n hnl c hc
          rw [hp] at this
          cases this
      · rw [if_neg hcp]
        by_cases hnn : n = node
        · subst hnn
          rw [if_pos rfl] at hc
          rcases List.mem_append.1 hc with hc | hc
          · exact h.1 n hnl c hc
          · exact absurd (by simpa using hc) hcp
        · rw [if_neg hnn] at hc
          exact h.1 n hnl c hc
    · intro n hnl
      rw [hl] at hnl
      rw [(hf n).1]
      by_cases hnn : n = node
      · subst hnn
        rw [if_pos rfl]
        refine List.Nodup.append (h.2 n hnl) (List.nodup_singleton p) ?_
        intro c hc1 hc2
        have hcp : c = p := by simpa using hc2
        subst hcp
        have := h.1 n hnl c hc1
        rw [hp] at this
        cases this
      · rw [if_neg hnn]
        exact h.2 n hnl

/-- Any sequence of `add_package_to_node` calls keeps the parent and children
fields consistent and leaves the node list as it is. -/
theorem attach_all_consistent (calls : List (Addr × Int)) : ∀ s : State,
    children_consistent s →
    children_consistent (attach_all s calls) ∧ (attach_all s calls).numa_nodes = s.numa_nodes := by
  induction calls with
  | nil => intro s h; exact ⟨h, rfl⟩
  | cons c rest ih =>
    intro s h
    have h1 := add_package_to_node_consistent s c.1 c.2 h
    have h2 := ih (add_package_to_node s c.1 c.2) h1
    have hl := (add_package_to_node_globals s c.1 c.2).1
    simp only [attach_all, List.foldl_cons] at h2 ⊢
    exact ⟨h2.1, by rw [h2.2, hl]⟩

/-- Every object `ingest` makes has no children. -/
theorem ingest_children (ext : External) (e : dirent) (o : topo_obj)
    (h : ingest ext e = some o) : o.children = [] := by
  unfold ingest at h
  split at h
  · obtain ⟨f, _, hf⟩ := Option.map_eq_some'.1 h
    rw [← hf]
    rfl
  · cases h

/-- After a build on an empty list no listed node has a child. -/
theorem build_children_empty (ext : External) (host : Host) (s : State)
    (h0 : s.numa_nodes = []) :
    ∀ n ∈ (build_numa_node_list ext host s).numa_nodes,
      ((build_numa_node_list ext host s).mem n).children = [] := by
  obtain ⟨news, h1, h2, h3, _⟩ := build_numa_node_list_spec ext host s
  intro n hn
  rw [h1, h0] at hn
  rcases List.mem_cons.1 (by simpa using hn) with hn | hn
  · rw [hn, h2]
    rfl
  · have : (build_numa_node_list ext host s).mem n
        ∈ news.map (build_numa_node_list ext host s).mem := List.mem_map.2 ⟨n, hn, rfl⟩
    rw [h3] at this
    obtain ⟨e, _, he⟩ := List.mem_filterMap.1 this
    exact ingest_children ext e _ he

/-- An entry on which `calloc` fails contributes no node: `add_one_node`
returns before it reaches `fopen`, and the built list holds the sentinel only. -/
theorem no_memory_example :
    (build_numa_node_list example_ext no_memory_host (boot_state true)).numa_nodes
      = [Addr.unspecified_node] := by
  decide

/-! ## The claims -/

/-- C1: after `build_numa_node_list` on an empty node list, for any host, the
first element of the node list is the sentinel `&unspecified_node`, and the
sentinel has number -1, the all-CPUs mask, no parent and no children. -/
theorem C1_build_sentinel_first (ext : External) (host : Host) (s : State)
    (h : s.numa_nodes = []) :
    (build_numa_node_list ext host s).numa_nodes.head? = some Addr.unspecified_node ∧
    ((build_numa_node_list ext host s).mem Addr.unspecified_node).number = -1 ∧
    ((build_numa_node_list ext host s).mem Addr.unspecified_node).mask
      = CPU_MASK_ALL ext.NR_CPUS ∧
    ((build_numa_node_list ext host s).mem Addr.unspecified_node).parent = none ∧
    ((build_numa_node_list ext host s).mem Addr.unspecified_node).children = [] := by
  obtain ⟨news, h1, h2, _⟩ := build_numa_node_list_spec ext host s
  rw [h1, h2, h]
  simp [unspecified_node_template]

theorem C1_build_sentinel_first_witness :
    (boot_state true).numa_nodes = [] ∧
    two_node_state.numa_nodes.head? = some Addr.unspecified_node ∧
    (two_node_state.mem Addr.unspecified_node).number = -1 ∧
    (two_node_state.mem Addr.unspecified_node).mask = 65535 ∧
    (two_node_state.mem Addr.unspecified_node).parent = none ∧
    (two_node_state.mem Addr.unspecified_node).children = [] :=
  ⟨rfl, C1_build_sentinel_first example_ext two_node_host (boot_state true) rfl⟩

/-- C2: `get_numa_node` returns the sentinel whenever NUMA is unavailable,
for every id, and whenever the id is -1, whatever the node list holds. -/
theorem C2_lookup_sentinel (s : State) (id : Int) (h : s.numa_avail = false ∨ id = -1) :
    get_numa_node s id = some Addr.unspecified_node := by
  unfold get_numa_node
  rcases h with h | h
  · simp [h]
  · simp [h]

theorem C2_lookup_sentinel_witness :
    get_numa_node (build_numa_node_list example_ext two_node_host (boot_state false)) 1
      = some Addr.unspecified_node ∧
    get_numa_node two_node_state (-1) = some Addr.unspecified_node :=
  ⟨C2_lookup_sentinel _ 1 (Or.inl (by decide)), C2_lookup_sentinel two_node_state (-1) (Or.inr rfl)⟩

/-- C3: when NUMA is available and the id is not -1, `get_numa_node` returns
the first element of the node list, in list order, whose number is the id; it
returns `NULL` exactly when no element has that number; a node it returns is
an element of the list and has that number. -/
theorem C3_lookup_first_match (s : State) (id : Int) (hav : s.numa_avail = true)
    (hid : id ≠ -1) :
    get_numa_node s id = s.numa_nodes.find? (fun a => decide ((s.mem a).number = id)) ∧
    (get_numa_node s id = none ↔ ∀ a ∈ s.numa_nodes, (s.mem a).number ≠ id) ∧
    (∀ n, get_numa_node s id = some n →
      n ∈ s.numa_nodes ∧ (s.mem n).number = id ∧
      ∃ pre post, s.numa_nodes = pre ++ n :: post ∧ ∀ m ∈ pre, (s.mem m).number ≠ id) := by
  have hg : get_numa_node s id
      = g_list_find_custom (fun e => compare_node (s.mem e).number id) s.numa_nodes := by
    simp [get_numa_node, hav, hid]
  refine ⟨?_, ?_, ?_⟩
  · rw [hg]
    generalize s.numa_nodes = l
    induction l with
    | nil => simp [g_list_find_custom]
    | cons e rest ih =>
      by_cases he : (s.mem e).number = id
      · simp [g_list_find_custom, compare_node_eq_zero, he]
      · simp [g_list_find_custom, compare_node_eq_zero, he, ih]
  · rw [hg, g_list_find_custom_eq_none]
    simp [compare_node_eq_zero]
  · intro n hn
    rw [hg] at hn
    obtain ⟨pre, post, h1, h2, h3⟩ := g_list_find_custom_eq_some _ _ _ hn
    refine ⟨by simp [h1], (compare_node_eq_zero _ _).1 h2, pre, post, h1, ?_⟩
    intro m hm
    exact fun hc => h3 m hm ((compare_node_eq_zero _ _).2 hc)

theorem C3_lookup_first_match_witness :
    get_numa_node two_node_state 1
      = two_node_state.numa_nodes.find? (fun a => decide ((two_node_state.mem a).number = 1)) ∧
    (get_numa_node two_node_state 1 = none ↔
      ∀ a ∈ two_node_state.numa_nodes, (two_node_state.mem a).number ≠ 1) ∧
    (∀ n, get_numa_node two_node_state 1 = some n →
      n ∈ two_node_state.numa_nodes ∧ (two_node_state.mem n).number = 1 ∧
      ∃ pre post, two_node_state.numa_nodes = pre ++ n :: post ∧
        ∀ m ∈ pre, (two_node_state.mem m).number ≠ 1) :=
  C3_lookup_first_match two_node_state 1 (by decide) (by decide)

/-- C4 (as amended): after `build_numa_node_list` on an empty list, when the
entries the scan turns into nodes carry the names the kernel gives node
directories, `node` followed by the decimal numeral of some `k < 2^31`, with
pairwise distinct `k`, every real node has a number that is at least 0, no two
real nodes have the same number, and the numbers of the real nodes are these
`k` in scan order. -/
theorem C4_kernel_names_give_valid_numbers (ext : External) (host : Host) (s : State)
    (ks : List Nat) (h0 : s.numa_nodes = [])
    (hnames : ingested_names (scanned_entries host s.numa_avail) = ks.map kernel_node_name)
    (hlt : ∀ k ∈ ks, k < 2 ^ 31) (hnd : ks.Nodup) :
    (∀ a ∈ (build_numa_node_list ext host s).numa_nodes, a ≠ Addr.unspecified_node →
      0 ≤ ((build_numa_node_list ext host s).mem a).number) ∧
    (∀ a ∈ (build_numa_node_list ext host s).numa_nodes,
      ∀ b ∈ (build_numa_node_list ext host s).numa_nodes,
      a ≠ Addr.unspecified_node → b ≠ Addr.unspecified_node → a ≠ b →
      ((build_numa_node_list ext host s).mem a).number
        ≠ ((build_numa_node_list ext host s).mem b).number) ∧
    (build_numa_node_list ext host s).numa_nodes.tail.map
        (fun a => ((build_numa_node_list ext host s).mem a).number)
      = ks.map (fun k : Nat => (k : Int)) := by
  obtain ⟨news, h1, _, _, h4⟩ := build_numbers ext host s h0
  have hnum : news.map (fun a => ((build_numa_node_list ext host s).mem a).number)
      = ks.map (fun k : Nat => (k : Int)) := by
    rw [h4, hnames, List.map_map]
    apply List.map_congr_left
    intro k hk
    exact node_number_kernel_name k (hlt k hk)
  have hnodup : (news.map (fun a => ((build_numa_node_list ext host s).mem a).number)).Nodup := by
    rw [hnum]
    exact hnd.map (fun a b hab => by exact_mod_cast hab)
  have hmem : ∀ a ∈ (build_numa_node_list ext host s).numa_nodes,
      a ≠ Addr.unspecified_node → a ∈ news := by
    intro a ha hne
    rw [h1] at ha
    rcases List.mem_cons.1 ha with h | h
    · exact absurd h hne
    · exact h
  refine ⟨?_, ?_, ?_⟩
  · intro a ha hne
    have hin : ((build_numa_node_list ext host s).mem a).number
        ∈ news.map (fun a => ((build_numa_node_list ext host s).mem a).number) :=
      List.mem_map.2 ⟨a, hmem a ha hne, rfl⟩
    rw [hnum] at hin
    obtain ⟨k, _, hk⟩ := List.mem_map.1 hin
    rw [← hk]
    exact Int.natCast_nonneg k
  · intro a ha b hb hna hnb hab heq
    exact hab (List.inj_on_of_nodup_map hnodup (hmem a ha hna) (hmem b hb hnb) heq)
  · rw [h1]
    exact hnum

theorem C4_kernel_names_give_valid_numbers_witness :
    (∀ a ∈ two_node_state.numa_nodes, a ≠ Addr.unspecified_node →
      0 ≤ (two_node_state.mem a).number) ∧
    (∀ a ∈ two_node_state.numa_nodes, ∀ b ∈ two_node_state.numa_nodes,
      a ≠ Addr.unspecified_node → b ≠ Addr.unspecified_node → a ≠ b →
      (two_node_state.mem a).number ≠ (two_node_state.mem b).number) ∧
    two_node_state.numa_nodes.tail.map (fun a => (two_node_state.mem a).number)
      = [0, 1].map (fun k : Nat => (k : Int)) :=
  C4_kernel_names_give_valid_numbers example_ext two_node_host (boot_state true) [0, 1]
    rfl (by decide) (by decide) (by decide)

/-- C4 fails as stated: on a host whose node directory holds `node0`, `node00`
and `node-1`, the build creates three real nodes, two of them with the number
0 and one with the number -1. -/
theorem C4_counterexample :
    odd_names_state.numa_nodes
      = [Addr.unspecified_node, Addr.obj 2, Addr.obj 3, Addr.obj 4] ∧
    (odd_names_state.mem (Addr.obj 2)).number = 0 ∧
    (odd_names_state.mem (Addr.obj 3)).number = 0 ∧
    (odd_names_state.mem (Addr.obj 4)).number = -1 ∧
    ¬ ((∀ a ∈ odd_names_state.numa_nodes, a ≠ Addr.unspecified_node →
        0 ≤ (odd_names_state.mem a).number) ∧
      (∀ a ∈ odd_names_state.numa_nodes, ∀ b ∈ odd_names_state.numa_nodes,
        a ≠ Addr.unspecified_node → b ≠ Addr.unspecified_node → a ≠ b →
        (odd_names_state.mem a).number ≠ (odd_names_state.mem b).number)) := by
  refine ⟨by decide, by decide, by decide, by decide, ?_⟩
  intro h
  have h4 := h.1 (Addr.obj 4) (by decide) (by decide)
  revert h4
  decide

/-- C5 (as amended): for an id that is negative on a list whose numbers are
all at least -1, or that matches no node in the list, `get_numa_node` returns
the sentinel when NUMA is unavailable or the id is -1, and `NULL` otherwise
(NUMA available and an id other than -1). -/
theorem C5_unknown_or_negative_id (s : State) (id : Int)
    (h : (id < 0 ∧ ∀ a ∈ s.numa_nodes, -1 ≤ (s.mem a).number) ∨
      ∀ a ∈ s.numa_nodes, (s.mem a).number ≠ id) :
    get_numa_node s id
      = if s.numa_avail = true ∧ id ≠ -1 then none else some Addr.unspecified_node := by
  by_cases hav : s.numa_avail = true
  · by_cases hid : id = -1
    · simp [get_numa_node, hid]
    · have hno : ∀ a ∈ s.numa_nodes, (s.mem a).number ≠ id := by
        rcases h with ⟨hneg, hge⟩ | h
        · intro a ha heq
          have := hge a ha
          omega
        · exact h
      rw [if_pos ⟨hav, hid⟩]
      exact (get_numa_node_eq_none_iff s id hav hid).2 hno
  · have hf : s.numa_avail = false := by simpa using hav
    simp [get_numa_node, hf]

theorem C5_unknown_or_negative_id_witness :
    get_numa_node two_node_state 7 = none ∧ get_numa_node two_node_state (-2) = none :=
  ⟨C5_unknown_or_negative_id two_node_state 7 (Or.inr (by decide)),
   C5_unknown_or_negative_id two_node_state (-2) (Or.inl ⟨by decide, by decide⟩)⟩

/-- C5 fails as stated: on the two-node host with NUMA available, the id 7
matches no node and the id -2 is negative, and for both `get_numa_node`
returns `NULL`, not the sentinel. -/
theorem C5_counterexample :
    two_node_state.numa_avail = true ∧
    (∀ a ∈ two_node_state.numa_nodes, (two_node_state.mem a).number ≠ 7) ∧
    get_numa_node two_node_state 7 = none ∧
    get_numa_node two_node_state (-2) = none ∧
    ¬ (∀ id : Int, (id < 0 ∨ ∀ a ∈ two_node_state.numa_nodes, (two_node_state.mem a).number ≠ id) →
        get_numa_node two_node_state id = some Addr.unspecified_node) := by
  refine ⟨by decide, by decide, by decide, by decide, ?_⟩
  intro h
  have h2 := h (-2) (Or.inl (by decide))
  revert h2
  decide

/-- C6: `add_package_to_node (p, id)` on a package whose parent is already set
writes to no object, so `p->parent` and the children of every node, the node
the id resolves to included, are unchanged, and the node list is unchanged. -/
theorem C6_attach_with_parent_is_noop (s : State) (p : Addr) (id : Int)
    (h : (s.mem p).parent ≠ none) :
    (add_package_to_node s p id).mem = s.mem ∧
    ((add_package_to_node s p id).mem p).parent = (s.mem p).parent ∧
    (∀ n, ((add_package_to_node s p id).mem n).children = (s.mem n).children) ∧
    (add_package_to_node s p id).numa_nodes = s.numa_nodes := by
  have hm : (add_package_to_node s p id).mem = s.mem ∧
      (add_package_to_node s p id).numa_nodes = s.numa_nodes := by
    unfold add_package_to_node
    cases hg : get_numa_node s id with
    | none => simp
    | some node => simp [h]
  exact ⟨hm.1, by rw [hm.1], fun n => by rw [hm.1], hm.2⟩

theorem C6_attach_with_parent_is_noop_witness :
    get_numa_node two_node_state 0 = some (Addr.obj 2) ∧
    get_numa_node two_node_state 1 = some (Addr.obj 3) ∧
    (attached_state.mem (Addr.obj 0)).parent = some (Addr.obj 2) ∧
    (attached_state.mem (Addr.obj 2)).children = [Addr.obj 0] ∧
    (attached_state.mem (Addr.obj 3)).children = [] ∧
    ((add_package_to_node attached_state (Addr.obj 0) 1).mem = attached_state.mem ∧
     ((add_package_to_node attached_state (Addr.obj 0) 1).mem (Addr.obj 0)).parent
       = (attached_state.mem (Addr.obj 0)).parent ∧
     (∀ n, ((add_package_to_node attached_state (Addr.obj 0) 1).mem n).children
       = (attached_state.mem n).children) ∧
     (add_package_to_node attached_state (Addr.obj 0) 1).numa_nodes
       = attached_state.numa_nodes) :=
  ⟨by decide, by decide, by decide, by decide, by decide,
   C6_attach_with_parent_is_noop attached_state (Addr.obj 0) 1 (by decide)⟩

/-- C7: when `p` has no parent and `get_numa_node (id)` resolves to a node
`n`, after `add_package_to_node (p, id)` the parent of `p` is `n` and the
children of `n` are its previous children followed by `p` as last element. -/
theorem C7_attach_appends_child (s : State) (p : Addr) (id : Int) (n : Addr)
    (hp : (s.mem p).parent = none) (hn : get_numa_node s id = some n) :
    ((add_package_to_node s p id).mem p).parent = some n ∧
    ((add_package_to_node s p id).mem n).children = (s.mem n).children ++ [p] := by
  unfold add_package_to_node
  simp only [hn, hp, if_true, State.store, g_list_append]
  by_cases hpn : p = n
  · subst hpn
    simp
  · have hnp : n ≠ p := fun h => hpn h.symm
    simp [Function.update_noteq hnp]

theorem C7_attach_appends_child_witness :
    ((add_package_to_node attached_state (Addr.obj 1) 0).mem (Addr.obj 1)).parent
      = some (Addr.obj 2) ∧
    ((add_package_to_node attached_state (Addr.obj 1) 0).mem (Addr.obj 2)).children
      = [Addr.obj 0] ++ [Addr.obj 1] :=
  C7_attach_appends_child attached_state (Addr.obj 1) 0 (Addr.obj 2) (by decide) (by decide)

/-- C8: when `get_numa_node (id)` is `NULL`, `add_package_to_node (p, id)`
writes to no object, so `p->parent` and the children of every node are
unchanged, it leaves the node list as it is, and its only effect is one `log`
call, for that id. -/
theorem C8_attach_to_missing_node (s : State) (p : Addr) (id : Int)
    (h : get_numa_node s id = none) :
    (add_package_to_node s p id).mem = s.mem ∧
    ((add_package_to_node s p id).mem p).parent = (s.mem p).parent ∧
    (∀ n, ((add_package_to_node s p id).mem n).children = (s.mem n).children) ∧
    (add_package_to_node s p id).log = s.log ++ [{ nodeid := id }] ∧
    (add_package_to_node s p id).numa_nodes = s.numa_nodes ∧
    (add_package_to_node s p id).numa_avail = s.numa_avail ∧
    (add_package_to_node s p id).brk = s.brk ∧
    (add_package_to_node s p id).freed = s.freed := by
  have hs : add_package_to_node s p id = { s with log := s.log ++ [{ nodeid := id }] } := by
    unfold add_package_to_node
    simp [h]
  rw [hs]
  simp

theorem C8_attach_to_missing_node_witness :
    one_node_state.numa_nodes = [Addr.unspecified_node, Addr.obj 2] ∧
    ((add_package_to_node one_node_state (Addr.obj 0) 7).mem = one_node_state.mem ∧
     ((add_package_to_node one_node_state (Addr.obj 0) 7).mem (Addr.obj 0)).parent
       = (one_node_state.mem (Addr.obj 0)).parent ∧
     (∀ n, ((add_package_to_node one_node_state (Addr.obj 0) 7).mem n).children
       = (one_node_state.mem n).children) ∧
     (add_package_to_node one_node_state (Addr.obj 0) 7).log
       = one_node_state.log ++ [{ nodeid := 7 }] ∧
     (add_package_to_node one_node_state (Addr.obj 0) 7).numa_nodes = one_node_state.numa_nodes ∧
     (add_package_to_node one_node_state (Addr.obj 0) 7).numa_avail = one_node_state.numa_avail ∧
     (add_package_to_node one_node_state (Addr.obj 0) 7).brk = one_node_state.brk ∧
     (add_package_to_node one_node_state (Addr.obj 0) 7).freed = one_node_state.freed) :=
  ⟨by decide, C8_attach_to_missing_node one_node_state (Addr.obj 0) 7 (by decide)⟩

/-- C9 (as amended): `get_numa_node (id)` is `NULL` only when NUMA is
available and the id is not -1; no element of the list then has that number.
The id need not be at least 0. -/
theorem C9_not_found_only_when (s : State) (id : Int) (h : get_numa_node s id = none) :
    s.numa_avail = true ∧ id ≠ -1 ∧ ∀ a ∈ s.numa_nodes, (s.mem a).number ≠ id := by
  cases hav : s.numa_avail with
  | false => simp [get_numa_node, hav] at h
  | true =>
    by_cases hid : id = -1
    · simp [get_numa_node, hid] at h
    · exact ⟨rfl, hid, (get_numa_node_eq_none_iff s id hav hid).1 h⟩

theorem C9_not_found_only_when_witness :
    one_node_state.numa_avail = true ∧ (7 : Int) ≠ -1 ∧
    ∀ a ∈ one_node_state.numa_nodes, (one_node_state.mem a).number ≠ 7 :=
  C9_not_found_only_when one_node_state 7 (by decide)

/-- C9 fails as stated: on the one-node host with NUMA available the lookup
of the id -2 is `NULL`, and -2 is not at least 0. -/
theorem C9_counterexample :
    get_numa_node one_node_state (-2) = none ∧
    ¬ (∀ (s : State) (id : Int), get_numa_node s id = none → s.numa_avail = true ∧ 0 ≤ id) := by
  refine ⟨by decide, ?_⟩
  intro h
  have h2 := (h one_node_state (-2) (by decide)).2
  revert h2
  decide

/-- C10: build, then any sequence of `add_package_to_node` calls, then
teardown, then build: in the resulting node list the sentinel is first, and
its children are empty, its interrupts are empty and its load is 0, whatever
was attached to it in the first tree. -/
theorem C10_rebuild_resets_sentinel (ext : External) (host1 host2 : Host) (s0 : State)
    (calls : List (Addr × Int)) :
    (build_numa_node_list ext host2 (free_numa_node_list
      (attach_all (build_numa_node_list ext host1 s0) calls))).numa_nodes.head?
      = some Addr.unspecified_node ∧
    ((build_numa_node_list ext host2 (free_numa_node_list
      (attach_all (build_numa_node_list ext host1 s0) calls))).mem
        Addr.unspecified_node).children = [] ∧
    ((build_numa_node_list ext host2 (free_numa_node_list
      (attach_all (build_numa_node_list ext host1 s0) calls))).mem
        Addr.unspecified_node).interrupts = [] ∧
    ((build_numa_node_list ext host2 (free_numa_node_list
      (attach_all (build_numa_node_list ext host1 s0) calls))).mem
        Addr.unspecified_node).load = 0 := by
  obtain ⟨h1, h2⟩ := build_after_teardown ext host2
    (attach_all (build_numa_node_list ext host1 s0) calls)
  refine ⟨h1, ?_, ?_, ?_⟩ <;> rw [h2] <;> rfl

/-- C11: `free_numa_node_list` leaves the node list empty from any state, and
running it a second time changes nothing: teardown twice gives the same state
as teardown once, and teardown on an empty list is the identity. -/
theorem C11_teardown_idempotent (s : State) :
    (free_numa_node_list s).numa_nodes = [] ∧
    free_numa_node_list (free_numa_node_list s) = free_numa_node_list s ∧
    (s.numa_nodes = [] → free_numa_node_list s = s) := by
  refine ⟨by simp [free_numa_node_list_eq], ?_, ?_⟩
  · rw [free_numa_node_list_eq (free_numa_node_list s)]
    simp [free_numa_node_list_eq]
  · intro h
    rw [free_numa_node_list_eq, h]
    cases s
    simp_all

theorem C11_teardown_idempotent_witness :
    (free_numa_node_list two_node_state).numa_nodes = [] ∧
    free_numa_node_list (free_numa_node_list two_node_state)
      = free_numa_node_list two_node_state ∧
    free_numa_node_list (boot_state true) = boot_state true :=
  ⟨(C11_teardown_idempotent two_node_state).1, (C11_teardown_idempotent two_node_state).2.1,
   (C11_teardown_idempotent (boot_state true)).2.2 rfl⟩

/-- C12: when NUMA is unavailable, or when `opendir` fails, a build on an
empty list gives the node list `[sentinel]`, whatever the directory holds; and
with NUMA unavailable the lookups of 0, -1 and 42 in the built state all
return the sentinel. -/
theorem C12_sentinel_only_list (ext : External) (host : Host) (s : State)
    (h0 : s.numa_nodes = []) (h : s.numa_avail = false ∨ host.opendir = none) :
    (build_numa_node_list ext host s).numa_nodes = [Addr.unspecified_node] ∧
    (build_numa_node_list ext host s).numa_nodes.length = 1 ∧
    (s.numa_avail = false →
      get_numa_node (build_numa_node_list ext host s) 0 = some Addr.unspecified_node ∧
      get_numa_node (build_numa_node_list ext host s) (-1) = some Addr.unspecified_node ∧
      get_numa_node (build_numa_node_list ext host s) 42 = some Addr.unspecified_node) := by
  have hl : (build_numa_node_list ext host s).numa_nodes = [Addr.unspecified_node] := by
    unfold build_numa_node_list
    rcases h with h | h
    · simp [State.store, g_list_append, h, h0]
    · cases hav : s.numa_avail <;> simp [State.store, g_list_append, h, h0, hav]
  refine ⟨hl, by rw [hl]; rfl, ?_⟩
  intro hav
  obtain ⟨_, _, _, _, _, _, _, h7, _⟩ := build_numa_node_list_spec ext host s
  have hav2 : (build_numa_node_list ext host s).numa_avail = false := by rw [h7, hav]
  simp [get_numa_node, hav2]

theorem C12_sentinel_only_list_witness :
    (no_numa_state.numa_nodes = [Addr.unspecified_node] ∧
     no_numa_state.numa_nodes.length = 1 ∧
     ((boot_state false).numa_avail = false →
       get_numa_node no_numa_state 0 = some Addr.unspecified_node ∧
       get_numa_node no_numa_state (-1) = some Addr.unspecified_node ∧
       get_numa_node no_numa_state 42 = some Addr.unspecified_node)) ∧
    (build_numa_node_list example_ext no_dir_host (boot_state true)).numa_nodes
      = [Addr.unspecified_node] :=
  ⟨C12_sentinel_only_list example_ext two_node_host (boot_state false) rfl (Or.inl rfl),
   (C12_sentinel_only_list example_ext no_dir_host (boot_state true) rfl (Or.inr rfl)).1⟩

/-- C13: when NUMA is available and `opendir` succeeds, the node list after a
build on an empty list is the sentinel followed by one new node object for each
directory entry that is a directory, whose name contains `node` and whose
`cpumap` file opens, in scan order, each holding the object made from that
entry; the other entries contribute nothing. -/
theorem C13_one_node_per_entry (ext : External) (host : Host) (s : State) (es : List dirent)
    (h0 : s.numa_nodes = []) (hav : s.numa_avail = true) (hdir : host.opendir = some es) :
    ∃ news : List Addr,
      (build_numa_node_list ext host s).numa_nodes = Addr.unspecified_node :: news ∧
      (∀ a ∈ news, a ≠ Addr.unspecified_node) ∧
      news.Nodup ∧
      List.Forall₂
        (fun a e => ∃ f, opened_stream e.outcome = some f ∧
          (build_numa_node_list ext host s).mem a = new_node ext f e.d_name.data)
        news (es.filter becomes_node) ∧
      news.length = (es.filter becomes_node).length ∧
      (build_numa_node_list ext host s).numa_nodes.length
        = 1 + (es.filter becomes_node).length := by
  obtain ⟨news, h1, _, h3, h4, h5, _⟩ := build_numa_node_list_spec ext host s
  have hsc : scanned_entries host s.numa_avail = es := by
    simp [scanned_entries, hav, hdir]
  rw [hsc] at h3
  have hf2 := forall2_of_map_eq_ingest ext _ es news h3
  have hl : (build_numa_node_list ext host s).numa_nodes = Addr.unspecified_node :: news := by
    simp [h1, h0]
  refine ⟨news, hl, ?_, h5, hf2, hf2.length_eq, ?_⟩
  · intro a ha
    obtain ⟨k, hk, _⟩ := h4 a ha
    simp [hk]
  · rw [hl, List.length_cons, hf2.length_eq]
    omega

theorem C13_one_node_per_entry_witness :
    two_node_state.numa_nodes.length = 3 ∧
    two_node_state.numa_nodes.head? = some Addr.unspecified_node ∧
    ∃ news : List Addr,
      two_node_state.numa_nodes = Addr.unspecified_node :: news ∧
      (∀ a ∈ news, a ≠ Addr.unspecified_node) ∧
      news.Nodup ∧
      List.Forall₂
        (fun a e => ∃ f, opened_stream e.outcome = some f ∧
          two_node_state.mem a = new_node example_ext f e.d_name.data)
        news ([node_dir "node0" "000000ff\n", node_dir "node1" "0000ff00\n"].filter
          becomes_node) ∧
      news.length = ([node_dir "node0" "000000ff\n", node_dir "node1" "0000ff00\n"].filter
          becomes_node).length ∧
      two_node_state.numa_nodes.length
        = 1 + ([node_dir "node0" "000000ff\n", node_dir "node1" "0000ff00\n"].filter
          becomes_node).length :=
  ⟨by decide, by decide,
   C13_one_node_per_entry example_ext two_node_host (boot_state true) _ rfl rfl rfl⟩

/-- C14: `add_one_node` leaves the node list as it is when the `cpumap` file
cannot be opened, and writes to no object that existed before; when the file
opens but the stream is in error or `getline` returns a value that is at most
0, it still appends exactly one node, the new object, and the mask of that node
is the empty set. -/
theorem C14_ingestion_failures (ext : External) (w : ingest_outcome) (nodename : List Char)
    (s : State) :
    (opened_stream w = none →
      (add_one_node ext w nodename s).numa_nodes = s.numa_nodes ∧
      ∀ k, k < s.brk → (add_one_node ext w nodename s).mem (Addr.obj k) = s.mem (Addr.obj k)) ∧
    (∀ f, opened_stream w = some f → (f.ferror = true ∨ f.getline_ret ≤ 0) →
      (add_one_node ext w nodename s).numa_nodes = s.numa_nodes ++ [Addr.obj s.brk] ∧
      ((add_one_node ext w nodename s).mem (Addr.obj s.brk)).mask = cpus_clear ∧
      ∀ i, Nat.testBit ((add_one_node ext w nodename s).mem (Addr.obj s.brk)).mask i = false) := by
  refine ⟨?_, ?_⟩
  · intro h
    cases hc : w.calloc_ok with
    | false => rw [add_one_node_no_memory ext w nodename s hc]; simp
    | true =>
      have hf : w.fopen = none := by simpa [opened_stream, hc] using h
      rw [add_one_node_no_file ext w nodename s hc hf]
      refine ⟨rfl, ?_⟩
      intro k hk
      have hne : Addr.obj k ≠ Addr.obj s.brk := by
        intro he
        cases he
        omega
      simp [Function.update_noteq hne]
  · intro f h hr
    cases hc : w.calloc_ok with
    | false => simp [opened_stream, hc] at h
    | true =>
      have hf : w.fopen = some f := by simpa [opened_stream, hc] using h
      rw [add_one_node_file ext w nodename s f hc hf]
      have hm : (new_node ext f nodename).mask = cpus_clear := by
        rcases hr with hr | hr
        · simp [new_node, hr]
        · simp [new_node, hr]
      exact ⟨rfl, by simpa using hm, fun i => by simp [hm, cpus_clear]⟩

theorem C14_ingestion_failures_witness :
    ((add_one_node example_ext { calloc_ok := true, fopen := none } "node0".data
        (boot_state true)).numa_nodes = (boot_state true).numa_nodes ∧
      ∀ k, k < (boot_state true).brk →
        (add_one_node example_ext { calloc_ok := true, fopen := none } "node0".data
          (boot_state true)).mem (Addr.obj k) = (boot_state true).mem (Addr.obj k)) ∧
    ((add_one_node example_ext { calloc_ok := true, fopen := some unreadable_stream }
        "node0".data (boot_state true)).numa_nodes
        = (boot_state true).numa_nodes ++ [Addr.obj (boot_state true).brk] ∧
      ((add_one_node example_ext { calloc_ok := true, fopen := some unreadable_stream }
        "node0".data (boot_state true)).mem (Addr.obj (boot_state true).brk)).mask = cpus_clear ∧
      ∀ i, Nat.testBit ((add_one_node example_ext
        { calloc_ok := true, fopen := some unreadable_stream }
        "node0".data (boot_state true)).mem (Addr.obj (boot_state true).brk)).mask i = false) :=
  ⟨(C14_ingestion_failures example_ext { calloc_ok := true, fopen := none } "node0".data
      (boot_state true)).1 rfl,
   (C14_ingestion_failures example_ext { calloc_ok := true, fopen := some unreadable_stream }
      "node0".data (boot_state true)).2 unreadable_stream rfl (Or.inr (by decide))⟩

/-- C15 (as amended): for a name ingested by `add_one_node` whose suffix at
offset 4 starts neither with white space nor with a sign, and whose leading run
of decimal digits has a value below 2^31, the number of the new node is that
value; it is 0 when the suffix is empty or starts with a character that is not
a decimal digit. -/
theorem C15_number_from_suffix (ext : External) (w : ingest_outcome) (nodename : List Char)
    (s : State) (f : cpumap_stream) (suffix : List Char)
    (ho : opened_stream w = some f) (hs : str_at nodename 4 = some suffix)
    (hlead : ∀ c rest, suffix = c :: rest → isspace c = false ∧ c.toNat ≠ 45 ∧ c.toNat ≠ 43)
    (hv : digits_value suffix 0 < 2 ^ 31) :
    ((add_one_node ext w nodename s).mem (Addr.obj s.brk)).number
      = (digits_value suffix 0 : Nat) ∧
    ((∀ c rest, suffix = c :: rest → isdigit c = false) →
      ((add_one_node ext w nodename s).mem (Addr.obj s.brk)).number = 0) := by
  have hnum : ((add_one_node ext w nodename s).mem (Addr.obj s.brk)).number
      = node_number nodename := by
    cases hc : w.calloc_ok with
    | false => simp [opened_stream, hc] at ho
    | true =>
      have hf : w.fopen = some f := by simpa [opened_stream, hc] using ho
      rw [add_one_node_file ext w nodename s f hc hf]
      simp [new_node]
  have hst : strtoul suffix = digits_value suffix 0 :=
    strtoul_unsigned suffix hlead (by unfold ULONG_MAX; omega)
  have hval : node_number nodename = (digits_value suffix 0 : Nat) := by
    simp only [node_number, hs, hst]
    exact to_int_small _ hv
  refine ⟨by rw [hnum, hval], ?_⟩
  intro hnd
  rw [hnum, hval]
  cases suffix with
  | nil => simp [digits_value]
  | cons c rest => simp [digits_value, hnd c rest rfl]

theorem C15_number_from_suffix_witness :
    ((add_one_node example_ext { calloc_ok := true, fopen := some unreadable_stream }
        "node12".data (boot_state true)).mem (Addr.obj (boot_state true).brk)).number = 12 ∧
    ((add_one_node example_ext { calloc_ok := true, fopen := some unreadable_stream }
        "node_list".data (boot_state true)).mem (Addr.obj (boot_state true).brk)).number = 0 :=
  ⟨(C15_number_from_suffix example_ext { calloc_ok := true, fopen := some unreadable_stream }
      "node12".data (boot_state true) unreadable_stream "12".data rfl (by decide)
      (by intro c rest h; cases h; decide) (by decide)).1,
   (C15_number_from_suffix example_ext { calloc_ok := true, fopen := some unreadable_stream }
      "node_list".data (boot_state true) unreadable_stream "_list".data rfl (by decide)
      (by intro c rest h; cases h; decide) (by decide)).2
      (by intro c rest h; cases h; decide)⟩

/-- C15 fails as stated: the suffix of `node-1` at offset 4 starts with a minus
sign, which is not a decimal digit, and the node ingested under that name gets
the number -1, not 0; the digits of `node4294967296` have the value 2^32 and
the node gets the number 0. -/
theorem C15_counterexample :
    str_at "node-1".data 4 = some "-1".data ∧
    isdigit (Char.ofNat 45) = false ∧
    ((add_one_node example_ext { calloc_ok := true, fopen := some unreadable_stream }
        "node-1".data (boot_state true)).mem (Addr.obj (boot_state true).brk)).number = -1 ∧
    ((add_one_node example_ext { calloc_ok := true, fopen := some unreadable_stream }
        "node4294967296".data (boot_state true)).mem (Addr.obj (boot_state true).brk)).number
      = 0 ∧
    ¬ (((add_one_node example_ext { calloc_ok := true, fopen := some unreadable_stream }
        "node-1".data (boot_state true)).mem (Addr.obj (boot_state true).brk)).number = 0) := by
  refine ⟨by decide, by decide, by decide, by decide, by decide⟩

/-- C16: after a build on an empty list and any sequence of
`add_package_to_node` calls, every element of the children of a listed node
has that node as its parent; hence an object is among the children of at most
one listed node, and it occurs there at most once. -/
theorem C16_parent_children_consistent (ext : External) (host : Host) (s : State)
    (calls : List (Addr × Int)) (h0 : s.numa_nodes = []) :
    (∀ n ∈ (populated_state ext host s calls).numa_nodes,
      ∀ c ∈ ((populated_state ext host s calls).mem n).children,
        ((populated_state ext host s calls).mem c).parent = some n) ∧
    (∀ n1 ∈ (populated_state ext host s calls).numa_nodes,
      ∀ n2 ∈ (populated_state ext host s calls).numa_nodes,
      ∀ c, c ∈ ((populated_state ext host s calls).mem n1).children →
        c ∈ ((populated_state ext host s calls).mem n2).children → n1 = n2) ∧
    (∀ n ∈ (populated_state ext host s calls).numa_nodes,
      ∀ c, ((populated_state ext host s calls).mem n).children.count c ≤ 1) := by
  have hinit : children_consistent (build_numa_node_list ext host s) := by
    have hc := build_children_empty ext host s h0
    refine ⟨?_, ?_⟩
    · intro n hn c hcm
      rw [hc n hn] at hcm
      cases hcm
    · intro n hn
      rw [hc n hn]
      exact List.nodup_nil
  have hcons := (attach_all_consistent calls _ hinit).1
  refine ⟨hcons.1, ?_, ?_⟩
  · intro n1 hn1 n2 hn2 c hc1 hc2
    have e1 := hcons.1 n1 hn1 c hc1
    have e2 := hcons.1 n2 hn2 c hc2
    rw [e1] at e2
    exact Option.some.inj e2
  · intro n hn c
    exact List.nodup_iff_count_le_one.1 (hcons.2 n hn) c

theorem C16_parent_children_consistent_witness :
    ((populated_state example_ext two_node_host (boot_state true)
        [(Addr.obj 0, 0), (Addr.obj 1, 0), (Addr.obj 0, 1)]).mem (Addr.obj 2)).children
      = [Addr.obj 0, Addr.obj 1] ∧
    ((populated_state example_ext two_node_host (boot_state true)
        [(Addr.obj 0, 0), (Addr.obj 1, 0), (Addr.obj 0, 1)]).mem (Addr.obj 3)).children = [] ∧
    ∀ n ∈ (populated_state example_ext two_node_host (boot_state true)
        [(Addr.obj 0, 0), (Addr.obj 1, 0), (Addr.obj 0, 1)]).numa_nodes,
      ∀ c ∈ ((populated_state example_ext two_node_host (boot_state true)
        [(Addr.obj 0, 0), (Addr.obj 1, 0), (Addr.obj 0, 1)]).mem n).children,
        ((populated_state example_ext two_node_host (boot_state true)
          [(Addr.obj 0, 0), (Addr.obj 1, 0), (Addr.obj 0, 1)]).mem c).parent = some n :=
  ⟨by decide, by decide,
   (C16_parent_children_consistent example_ext two_node_host (boot_state true)
      [(Addr.obj 0, 0), (Addr.obj 1, 0), (Addr.obj 0, 1)] rfl).1⟩

/-- C17: `get_numa_node` is a function of the state and yields no new state;
`add_package_to_node (p, id)` leaves the node list as it is, element for
element, leaves the number, mask, load, interrupts and type of every object
unchanged, leaves the parent of every object other than `p` unchanged (so of
every listed node when `p` is a package, not a listed node), and leaves the
children of every object other than the node the id resolves to unchanged. -/
theorem C17_attach_frame (s : State) (p : Addr) (id : Int) :
    (add_package_to_node s p id).numa_nodes = s.numa_nodes ∧
    (add_package_to_node s p id).numa_avail = s.numa_avail ∧
    (∀ a, ((add_package_to_node s p id).mem a).number = (s.mem a).number ∧
      ((add_package_to_node s p id).mem a).mask = (s.mem a).mask ∧
      ((add_package_to_node s p id).mem a).load = (s.mem a).load ∧
      ((add_package_to_node s p id).mem a).interrupts = (s.mem a).interrupts ∧
      ((add_package_to_node s p id).mem a).obj_type = (s.mem a).obj_type) ∧
    (∀ a, a ≠ p → ((add_package_to_node s p id).mem a).parent = (s.mem a).parent) ∧
    (p ∉ s.numa_nodes → ∀ n ∈ s.numa_nodes,
      ((add_package_to_node s p id).mem n).parent = (s.mem n).parent) ∧
    (∀ a, get_numa_node s id ≠ some a →
      ((add_package_to_node s p id).mem a).children = (s.mem a).children) ∧
    (∀ id2, get_numa_node (add_package_to_node s p id) id2 = get_numa_node s id2) := by
  have hg := add_package_to_node_globals s p id
  have hfields : ∀ a,
      (((add_package_to_node s p id).mem a).number = (s.mem a).number ∧
        ((add_package_to_node s p id).mem a).mask = (s.mem a).mask ∧
        ((add_package_to_node s p id).mem a).load = (s.mem a).load ∧
        ((add_package_to_node s p id).mem a).interrupts = (s.mem a).interrupts ∧
        ((add_package_to_node s p id).mem a).obj_type = (s.mem a).obj_type) ∧
      (a ≠ p → ((add_package_to_node s p id).mem a).parent = (s.mem a).parent) ∧
      (get_numa_node s id ≠ some a →
        ((add_package_to_node s p id).mem a).children = (s.mem a).children) := by
    intro a
    by_cases hatt : get_numa_node s id = none ∨ (s.mem p).parent ≠ none
    · rw [add_package_to_node_unattached s p id hatt]
      exact ⟨⟨rfl, rfl, rfl, rfl, rfl⟩, fun _ => rfl, fun _ => rfl⟩
    · have hp : (s.mem p).parent = none := by
        by_contra hc
        exact hatt (Or.inr hc)
      obtain ⟨node, hn⟩ : ∃ node, get_numa_node s id = some node := by
        cases hgn : get_numa_node s id with
        | none => exact absurd (Or.inl hgn) hatt
        | some node => exact ⟨node, rfl⟩
      obtain ⟨f1, f2, f3, f4, f5, f6, f7, _⟩ := add_package_to_node_attached s p id node hp hn a
      refine ⟨⟨f3, f4, f5, f6, f7⟩, ?_, ?_⟩
      · intro hap
        rw [f2, if_neg hap]
      · intro hna
        have : a ≠ node := fun h => hna (by rw [hn, h])
        rw [f1, if_neg this]
  refine ⟨hg.1, hg.2.1, fun a => (hfields a).1, fun a => (hfields a).2.1, ?_,
    fun a => (hfields a).2.2, ?_⟩
  · intro hpl n hn
    exact (hfields n).2.1 (fun h => hpl (h ▸ hn))
  · intro id2
    unfold get_numa_node
    rw [hg.1, hg.2.1]
    have : (fun e => compare_node ((add_package_to_node s p id).mem e).number id2)
        = (fun e => compare_node (s.mem e).number id2) := by
      funext e
      rw [((hfields e).1).1]
    rw [this]

theorem C17_attach_frame_witness :
    Addr.obj 0 ∉ two_node_state.numa_nodes ∧
    ∀ n ∈ two_node_state.numa_nodes,
      ((add_package_to_node two_node_state (Addr.obj 0) 0).mem n).parent
        = (two_node_state.mem n).parent :=
  ⟨by decide, (C17_attach_frame two_node_state (Addr.obj 0) 0).2.2.2.2.1 (by decide)⟩

/-- C18: `free_numa_node_list` passes to `free` exactly the elements of the
node list other than the sentinel `&unspecified_node`, in list order, and
never the sentinel.  The test is on the address, not on the fields: an element
other than the sentinel whose number is -1 is released too.  On a list without
repeated elements every such element is released exactly once. -/
theorem C18_teardown_releases_real_nodes (s : State) :
    (free_numa_node_list s).freed = s.freed ++ released_by_teardown s ∧
    released_by_teardown s
      = s.numa_nodes.filter (fun a => decide (a ≠ Addr.unspecified_node)) ∧
    (∀ a ∈ s.numa_nodes, a ≠ Addr.unspecified_node → a ∈ released_by_teardown s) ∧
    (∀ a ∈ s.numa_nodes, a ≠ Addr.unspecified_node → (s.mem a).number = -1 →
      a ∈ released_by_teardown s) ∧
    Addr.unspecified_node ∉ released_by_teardown s ∧
    (s.numa_nodes.Nodup → ∀ a ∈ s.numa_nodes, a ≠ Addr.unspecified_node →
      (released_by_teardown s).count a = 1) := by
  have hr : released_by_teardown s
      = s.numa_nodes.filter (fun a => decide (a ≠ Addr.unspecified_node)) := by
    simp [released_by_teardown, free_numa_node_list_eq]
  have hmem : ∀ a ∈ s.numa_nodes, a ≠ Addr.unspecified_node → a ∈ released_by_teardown s := by
    intro a ha hne
    rw [hr]
    exact List.mem_filter.2 ⟨ha, by simpa using hne⟩
  refine ⟨?_, hr, hmem, fun a ha hne _ => hmem a ha hne, ?_, ?_⟩
  · rw [hr, free_numa_node_list_eq]
  · rw [hr]
    intro h
    have := (List.mem_filter.1 h).2
    simp at this
  · intro hnd a ha hne
    exact List.count_eq_one_of_mem (hr ▸ hnd.filter _) (hmem a ha hne)

theorem C18_teardown_releases_real_nodes_witness :
    odd_names_state.numa_nodes.Nodup ∧
    (odd_names_state.mem (Addr.obj 4)).number = -1 ∧
    Addr.obj 4 ∈ released_by_teardown odd_names_state ∧
    (released_by_teardown odd_names_state).count (Addr.obj 4) = 1 ∧
    released_by_teardown odd_names_state = [Addr.obj 2, Addr.obj 3, Addr.obj 4] :=
  ⟨by decide, by decide,
   (C18_teardown_releases_real_nodes odd_names_state).2.2.2.1 (Addr.obj 4) (by decide)
     (by decide) (by decide),
   (C18_teardown_releases_real_nodes odd_names_state).2.2.2.2.2 (by decide) (Addr.obj 4)
     (by decide) (by decide),
   by decide⟩

/-- C19: a name that passes the filter of the scan loop, `strstr (name, "node")`
not `NULL`, has at least 4 characters, so `&nodename[4]` lies inside the string
(at worst at its terminator) and `add_one_node` parses the suffix at offset 4:
the out-of-bounds branch of `str_at` is not taken. -/
theorem C19_offset_4_in_bounds (name : List Char)
    (h : (strstr name "node".data).isSome = true) :
    4 ≤ name.length ∧ str_at name 4 = some (name.drop 4) ∧
    node_number name = to_int (strtoul (name.drop 4)) := by
  obtain ⟨k, hk⟩ := Option.isSome_iff_exists.1 h
  have hlen := strstr_length _ _ _ hk
  have h4 : 4 ≤ name.length := by
    have : "node".data.length = 4 := rfl
    omega
  have hat : str_at name 4 = some (name.drop 4) := by simp [str_at, h4]
  exact ⟨h4, hat, by simp [node_number, hat]⟩

theorem C19_offset_4_in_bounds_witness :
    4 ≤ "mynode".data.length ∧ str_at "mynode".data 4 = some ("mynode".data.drop 4) ∧
    node_number "mynode".data = to_int (strtoul ("mynode".data.drop 4)) :=
  C19_offset_4_in_bounds "mynode".data (by decide)

end Numa
